import Mathlib

/-!
# Verification of the GF2 logic-simulator front end

A shallow embedding, in Lean 4, of the name-interning table (`names.py`),
the scanner (`scanner.py`), the parser (`parse.py`) and the command-line
argument handling (`logsim.py`) of the GF2 logic simulator, together with
theorems settling the specification claims about those components.

Modelling conventions:
* Python strings of length ≤ 1 used as "current character" (where `''`
  marks end of file) are modelled as `Option Char`, `none` standing for `''`.
* Python's character classification functions (`str.isalpha`, `str.isupper`,
  `str.isdigit`, `str.isspace`, `str.isalnum`) are modelled for the ASCII
  range, which is the range the circuit-definition language uses.
* Machine integers do not overflow in any modelled routine; they are
  modelled as `Nat`.
* `devices.py`, `network.py` and `monitors.py` are not part of the sources;
  the few entry points the parser calls (`make_device`, `make_connection`,
  `make_monitor`, `check_network`) are modelled from the specification and
  are marked as such in their doc comments.
-/

namespace GF2

/-! ## `names.py`: the `Names` class

`Names.names` is a plain Python list of strings; an id is an index into it.
-/

/-- One step of `Names.lookup` for a single string, following `names.py`
lines 84–90: if the string is present return its first index; otherwise,
if it is non-empty, append it and return its index; empty strings produce
no id and are not added. -/
def pyLookupOne (names : List String) (s : String) : Option Nat × List String :=
  if s ∈ names then (some (names.indexOf s), names)
  else if 0 < s.length then (some ((names ++ [s]).indexOf s), names ++ [s])
  else (none, names)

/-- `Names.lookup` over a list of strings (`names.py` lines 70–91):
returns the list of ids produced, threading the table left to right. -/
def pyLookup (names : List String) (ss : List String) : List Nat × List String :=
  match ss with
  | [] => ([], names)
  | s :: rest =>
    let r := pyLookupOne names s
    let r2 := pyLookup r.2 rest
    (match r.1 with
     | some i => i :: r2.1
     | none => r2.1, r2.2)

/-- `Names.get_name_string` (`names.py` lines 95–110) restricted to
in-range ids: out-of-range ids give `none`. -/
def pyGetNameString (names : List String) (i : Nat) : Option String :=
  names.get? i

/-- The `Names` states reachable from a fresh `Names()` by any sequence of
`lookup` calls. -/
inductive NamesReachable : List String → Prop
  | init : NamesReachable []
  | step (ns : List String) (ss : List String) :
      NamesReachable ns → NamesReachable (pyLookup ns ss).2

/-- Invariant of a `Names` table: no duplicates and no empty string. -/
def NamesInv (ns : List String) : Prop := ns.Nodup ∧ "" ∉ ns

theorem pyLookupOne_inv (ns : List String) (s : String) (h : NamesInv ns) :
    NamesInv (pyLookupOne ns s).2 := by
  unfold pyLookupOne
  split
  · exact h
  next hnotmem =>
    split
    next hlen =>
      rcases h with ⟨hnd, hne⟩
      have hsne : s ≠ "" := by
        intro hs
        subst hs
        simp at hlen
      constructor
      · rw [List.nodup_append]
        refine ⟨hnd, List.nodup_singleton s, ?_⟩
        intro a ha hb
        rw [List.mem_singleton] at hb
        subst hb
        exact hnotmem ha
      · intro hmem
        rcases List.mem_append.1 hmem with h1 | h1
        · exact hne h1
        · rw [List.mem_singleton] at h1
          exact hsne h1.symm
    · exact h

theorem pyLookupOne_extends (ns : List String) (s : String) :
    ns <+: (pyLookupOne ns s).2 := by
  unfold pyLookupOne
  split
  · exact List.prefix_rfl
  · split
    · exact List.prefix_append ns [s]
    · exact List.prefix_rfl

theorem pyLookup_extends (ss ns : List String) : ns <+: (pyLookup ns ss).2 := by
  induction ss generalizing ns with
  | nil => exact List.prefix_rfl
  | cons s rest ih =>
    exact (pyLookupOne_extends ns s).trans (ih (pyLookupOne ns s).2)

theorem pyLookup_inv (ss ns : List String) (h : NamesInv ns) :
    NamesInv (pyLookup ns ss).2 := by
  induction ss generalizing ns with
  | nil => exact h
  | cons s rest ih => exact ih _ (pyLookupOne_inv ns s h)

theorem pyLookup_mem_mono (ss ns : List String) (t : String) (h : t ∈ ns) :
    t ∈ (pyLookup ns ss).2 :=
  (pyLookup_extends ss ns).sublist.mem h

/-- A string of length zero is the empty string. -/
theorem string_eq_empty_of_length (s : String) (h : s.length = 0) : s = "" := by
  cases s with
  | mk data =>
    have hd : data = [] := List.length_eq_zero.1 (by simpa using h)
    subst hd
    rfl

theorem pyLookup_cons_fst (ns : List String) (a : String) (rest : List String) :
    (pyLookup ns (a :: rest)).1 =
      (match (pyLookupOne ns a).1 with
       | some i => i :: (pyLookup (pyLookupOne ns a).2 rest).1
       | none => (pyLookup (pyLookupOne ns a).2 rest).1) := rfl

theorem pyLookup_cons_snd (ns : List String) (a : String) (rest : List String) :
    (pyLookup ns (a :: rest)).2 = (pyLookup (pyLookupOne ns a).2 rest).2 := rfl

theorem pyLookup_mem (ss : List String) :
    ∀ (ns : List String) (s : String), s ∈ ss → s ≠ "" →
      s ∈ (pyLookup ns ss).2 := by
  induction ss with
  | nil =>
    intro ns s hs _
    cases hs
  | cons a rest ih =>
    intro ns s hs hne
    rw [pyLookup_cons_snd]
    rcases List.mem_cons.1 hs with h1 | h1
    · subst h1
      apply pyLookup_mem_mono
      unfold pyLookupOne
      split
      next hmem => exact hmem
      split
      · exact List.mem_append_right ns (List.mem_singleton.2 rfl)
      next hlen => exact absurd (string_eq_empty_of_length s (by omega)) hne
    · exact ih _ s h1 hne

theorem pyLookup_drop_sublist (ss : List String) :
    ∀ ns : List String,
      List.Sublist ((pyLookup ns ss).2.drop ns.length)
        (ss.filter (fun s => !(s == ""))) := by
  induction ss with
  | nil =>
    intro ns
    simp [pyLookup]
  | cons s rest ih =>
    intro ns
    rw [pyLookup_cons_snd]
    have hfrest : List.Sublist (rest.filter (fun s => !(s == "")))
        ((s :: rest).filter (fun s => !(s == ""))) := by
      rw [List.filter_cons]
      split
      · exact List.Sublist.cons s (List.Sublist.refl _)
      · exact List.Sublist.refl _
    unfold pyLookupOne
    split
    · exact (ih ns).trans hfrest
    · split
      next hlen =>
        have hsne : (!(s == "")) = true := by
          simp only [Bool.not_eq_true', beq_eq_false_iff_ne, ne_eq]
          intro hs
          subst hs
          simp at hlen
        rw [List.filter_cons, if_pos hsne]
        rcases pyLookup_extends rest (ns ++ [s]) with ⟨t, ht⟩
        rw [← ht]
        have h1 : ((ns ++ [s]) ++ t).drop ns.length = s :: t := by
          rw [List.append_assoc, List.drop_left]
          rfl
        rw [h1]
        have ih2 := ih (ns ++ [s])
        rw [← ht] at ih2
        have h2 : ((ns ++ [s]) ++ t).drop (ns ++ [s]).length = t := List.drop_left _ _
        rw [h2] at ih2
        exact List.Sublist.cons₂ s ih2
      · exact (ih ns).trans hfrest

theorem pyLookup_fst (ss : List String) :
    ∀ ns : List String, NamesInv ns →
      (pyLookup ns ss).1 =
        (ss.filter (fun s => !(s == ""))).map
          (fun s => List.indexOf s (pyLookup ns ss).2) := by
  induction ss with
  | nil =>
    intro ns _
    simp [pyLookup]
  | cons s rest ih =>
    intro ns h
    by_cases hse : s = ""
    · subst hse
      have hstep : pyLookupOne ns "" = (none, ns) := by
        unfold pyLookupOne
        rw [if_neg h.2]
        simp
      rw [List.filter_cons]
      simp only [pyLookup_cons_fst, pyLookup_cons_snd, hstep]
      simpa using ih ns h
    · have hpos : (!(s == "")) = true := by simp [hse]
      rw [List.filter_cons, if_pos hpos]
      by_cases hmem : s ∈ ns
      · have hstep : pyLookupOne ns s = (some (ns.indexOf s), ns) := by
          unfold pyLookupOne
          rw [if_pos hmem]
        simp only [pyLookup_cons_fst, pyLookup_cons_snd, hstep, List.map_cons]
        have hhead : List.indexOf s ns = List.indexOf s (pyLookup ns rest).2 := by
          rcases pyLookup_extends rest ns with ⟨t, ht⟩
          rw [← ht, List.indexOf_append_of_mem hmem]
        rw [ih ns h, hhead]
      · have hlen : 0 < s.length := by
          rcases Nat.eq_zero_or_pos s.length with h0 | h0
          · exact absurd (string_eq_empty_of_length s h0) hse
          · exact h0
        have hstep : pyLookupOne ns s =
            (some ((ns ++ [s]).indexOf s), ns ++ [s]) := by
          unfold pyLookupOne
          rw [if_neg hmem, if_pos hlen]
        simp only [pyLookup_cons_fst, pyLookup_cons_snd, hstep, List.map_cons]
        have hinv2 : NamesInv (ns ++ [s]) := by
          have := pyLookupOne_inv ns s h
          rw [hstep] at this
          exact this
        have hhead : List.indexOf s (ns ++ [s]) =
            List.indexOf s (pyLookup (ns ++ [s]) rest).2 := by
          rcases pyLookup_extends rest (ns ++ [s]) with ⟨t, ht⟩
          rw [← ht]
          have hm : s ∈ ns ++ [s] :=
            List.mem_append_right ns (List.mem_singleton.2 rfl)
          rw [List.indexOf_append_of_mem hm]
        rw [ih (ns ++ [s]) hinv2, hhead]

theorem pyLookup_of_all_mem (ss : List String) :
    ∀ M : List String, "" ∉ M → (∀ s ∈ ss, s ≠ "" → s ∈ M) →
      pyLookup M ss =
        ((ss.filter (fun s => !(s == ""))).map (fun s => List.indexOf s M), M) := by
  induction ss with
  | nil =>
    intro M _ _
    simp [pyLookup]
  | cons s rest ih =>
    intro M hM h
    have hrest : ∀ t ∈ rest, t ≠ "" → t ∈ M :=
      fun t ht => h t (List.mem_cons_of_mem s ht)
    rw [List.filter_cons]
    by_cases hse : s = ""
    · subst hse
      have hstep : pyLookupOne M "" = (none, M) := by
        unfold pyLookupOne
        rw [if_neg hM]
        simp
      have hpair : pyLookup M ("" :: rest) =
          ((pyLookup (pyLookupOne M "").2 rest).1,
           (pyLookup (pyLookupOne M "").2 rest).2) := by
        rw [Prod.ext_iff]
        refine ⟨?_, rfl⟩
        rw [pyLookup_cons_fst, hstep]
      rw [hpair, hstep]
      simp only [ih M hM hrest]
      simp
    · have hpos : (!(s == "")) = true := by simp [hse]
      have hmem : s ∈ M := h s (List.mem_cons_self s rest) hse
      have hstep : pyLookupOne M s = (some (M.indexOf s), M) := by
        unfold pyLookupOne
        rw [if_pos hmem]
      have hpair : pyLookup M (s :: rest) =
          (M.indexOf s :: (pyLookup (pyLookupOne M s).2 rest).1,
           (pyLookup (pyLookupOne M s).2 rest).2) := by
        rw [Prod.ext_iff]
        refine ⟨?_, rfl⟩
        rw [pyLookup_cons_fst, hstep]
      rw [hpair, hstep]
      simp only [ih M hM hrest]
      rw [if_pos hpos]
      simp

theorem namesReachable_inv (ns : List String) (h : NamesReachable ns) :
    NamesInv ns := by
  induction h with
  | init => exact ⟨List.nodup_nil, List.not_mem_nil ""⟩
  | step ns ss _ ih => exact pyLookup_inv ss ns ih

/-- C4. In every `Names` state reachable by `lookup` calls, the stored
strings are pairwise distinct; `lookup` is idempotent (repeating a call
returns the same ids and leaves the table unchanged); the table before the
call is a prefix of the table after it; the newly appended strings form a
subsequence of the non-empty strings of the request, in the order given;
and every non-empty requested string is present afterwards. -/
theorem names_lookup_distinct_idempotent (ns : List String)
    (h : NamesReachable ns) :
    (∀ i j : Fin ns.length, i ≠ j → ns.get i ≠ ns.get j)
    ∧ ∀ ss : List String,
        pyLookup (pyLookup ns ss).2 ss = ((pyLookup ns ss).1, (pyLookup ns ss).2)
        ∧ ns <+: (pyLookup ns ss).2
        ∧ List.Sublist ((pyLookup ns ss).2.drop ns.length)
            (ss.filter (fun s => !(s == "")))
        ∧ (∀ s ∈ ss, s ≠ "" → s ∈ (pyLookup ns ss).2) := by
  have hinv := namesReachable_inv ns h
  constructor
  · intro i j hij heq
    exact hij (hinv.1.get_inj_iff.1 heq)
  · intro ss
    refine ⟨?_, pyLookup_extends ss ns, pyLookup_drop_sublist ss ns,
      fun s hs hne => pyLookup_mem ss ns s hs hne⟩
    have hinv2 := pyLookup_inv ss ns hinv
    have hall : ∀ s ∈ ss, s ≠ "" → s ∈ (pyLookup ns ss).2 :=
      fun s hs hne => pyLookup_mem ss ns s hs hne
    rw [pyLookup_of_all_mem ss (pyLookup ns ss).2 hinv2.2 hall]
    rw [← pyLookup_fst ss ns hinv]

/-- Witness for C4 at the reachable state obtained by interning
`["SW1", "SW2", "G1"]` into a fresh table. -/
theorem names_lookup_distinct_idempotent_witness :
    (∀ i j : Fin (pyLookup [] ["SW1", "SW2", "G1"]).2.length,
        i ≠ j → (pyLookup [] ["SW1", "SW2", "G1"]).2.get i ≠
          (pyLookup [] ["SW1", "SW2", "G1"]).2.get j)
    ∧ ∀ ss : List String,
        pyLookup (pyLookup (pyLookup [] ["SW1", "SW2", "G1"]).2 ss).2 ss =
          ((pyLookup (pyLookup [] ["SW1", "SW2", "G1"]).2 ss).1,
           (pyLookup (pyLookup [] ["SW1", "SW2", "G1"]).2 ss).2)
        ∧ (pyLookup [] ["SW1", "SW2", "G1"]).2 <+:
            (pyLookup (pyLookup [] ["SW1", "SW2", "G1"]).2 ss).2
        ∧ List.Sublist
            ((pyLookup (pyLookup [] ["SW1", "SW2", "G1"]).2 ss).2.drop
              (pyLookup [] ["SW1", "SW2", "G1"]).2.length)
            (ss.filter (fun s => !(s == "")))
        ∧ (∀ s ∈ ss, s ≠ "" →
            s ∈ (pyLookup (pyLookup [] ["SW1", "SW2", "G1"]).2 ss).2) :=
  names_lookup_distinct_idempotent (pyLookup [] ["SW1", "SW2", "G1"]).2
    (NamesReachable.step [] ["SW1", "SW2", "G1"] NamesReachable.init)

/-! ## `scanner.py`: character classification

Python's `str` classification methods, modelled on the ASCII range
(the range used by the circuit-definition language). -/

/-- `str.isupper` for one ASCII character. -/
def pyIsUpperCh (c : Char) : Bool := decide (65 ≤ c.toNat ∧ c.toNat ≤ 90)

/-- `str.islower` for one ASCII character. -/
def pyIsLowerCh (c : Char) : Bool := decide (97 ≤ c.toNat ∧ c.toNat ≤ 122)

/-- `str.isalpha` for one ASCII character. -/
def pyIsAlphaCh (c : Char) : Bool := pyIsUpperCh c || pyIsLowerCh c

/-- `str.isdigit` for one ASCII character. -/
def pyIsDigitCh (c : Char) : Bool := decide (48 ≤ c.toNat ∧ c.toNat ≤ 57)

/-- `str.isalnum` for one ASCII character. -/
def pyIsAlnumCh (c : Char) : Bool := pyIsAlphaCh c || pyIsDigitCh c

/-- `str.isspace` for one ASCII character: space, tab, LF, VT, FF, CR. -/
def pyIsSpaceCh (c : Char) : Bool :=
  decide (c.toNat = 32 ∨ (9 ≤ c.toNat ∧ c.toNat ≤ 13))

/-- `str.isspace` on a current-character value (`''.isspace()` is false). -/
def pyIsSpaceO : Option Char → Bool
  | none => false
  | some c => pyIsSpaceCh c

/-- `str.isupper` on a whole name: at least one cased character, and all
cased characters upper-case (cased = letter in the ASCII range). -/
def pyStrIsUpper (l : List Char) : Bool :=
  l.any pyIsAlphaCh && l.all (fun c => !pyIsAlphaCh c || pyIsUpperCh c)

/-- `str.isalpha` on a whole name: non-empty and all alphabetic. -/
def pyStrIsAlpha (l : List Char) : Bool :=
  !l.isEmpty && l.all pyIsAlphaCh

/-! ## `scanner.py`: the `Symbol` and `Scanner` classes -/

/-- `Scanner.symbol_types` (`scanner.py` lines 84–89). -/
inductive SymType
  | COMMA | DOT | SEMICOLON | CONNECTION_OP | KEYWORD | NUMBER
  | OPENPAREN | CLOSEPAREN | EOF | NAME_CAPS | NAME_CAPSNUM | NAME_ALNUM
deriving DecidableEq, Repr

/-- The `Symbol` class (`scanner.py` lines 16–32); `none` models Python
`None` for unassigned type/id. -/
structure Symbol where
  symtype : Option SymType
  symid : Option Nat
  linenum : Nat
  colnum : Nat
deriving DecidableEq, Repr

/-- `Scanner.keywords` (`scanner.py` line 90). -/
def keywords : List String := ["DEVICE", "CONNECT", "MONITOR", "END"]

/-- The mutable state of a `Scanner`: the file as a list of lines (newline
characters kept, as `readlines` produces them), the shared `Names` table,
and the cursor (`_current_char`, `_current_line_num`, `_current_col_num`).
`cur = none` models `_current_char == ''`. -/
structure ScSt where
  filelines : List (List Char)
  names : List String
  cur : Option Char
  lineNum : Nat
  colNum : Nat
deriving DecidableEq, Repr

/-- A fresh scanner on a file (`scanner.py` lines 72–105): cursor at line
0, column 0, current character `''`. -/
def initScanner (file : List (List Char)) (names : List String) : ScSt :=
  ⟨file, names, none, 0, 0⟩

/-- The line the cursor is on. -/
def lineAt (s : ScSt) : List Char := s.filelines.getD s.lineNum []

/-- `Scanner._get_next_char` (`scanner.py` lines 107–126). -/
def getNextChar (s : ScSt) : ScSt :=
  if s.filelines.length = 0 then s
  else
    let cl := lineAt s
    if cl.length ≤ s.colNum then
      if s.filelines.length - 1 ≤ s.lineNum then { s with cur := none }
      else
        { s with lineNum := s.lineNum + 1, colNum := 1,
                 cur := (s.filelines.getD (s.lineNum + 1) [])[0]? }
    else
      { s with cur := cl[s.colNum]?, colNum := s.colNum + 1 }

/-- The loop of `Scanner._skip_to_next_symbol` (`scanner.py` lines
128–138), with the `isincomment` flag as first state component. The fuel
argument only bounds the number of iterations; whenever the loop condition
fails the result does not depend on the fuel. -/
def skipLoop : Nat → Bool → ScSt → ScSt
  | 0, _, s => s
  | f + 1, inc, s =>
    if pyIsSpaceO s.cur || inc then
      let s1 := getNextChar s
      if inc then
        if s1.cur == some '\n' || s1.cur == none then
          skipLoop f false (getNextChar s1)
        else skipLoop f true s1
      else skipLoop f (s1.cur == some '#') s1
    else s

/-- `Scanner._skip_to_next_symbol` (`scanner.py` lines 128–138): the
`isincomment` flag is initialised from the current character. The comment
delimiters are the initialised values `'#'` and `'\n'`. -/
def pySkip (fuel : Nat) (s : ScSt) : ScSt :=
  skipLoop fuel (s.cur == some '#') s

/-- The `while` loop of `Scanner._get_name` (`scanner.py` lines 222–224). -/
def nameLoop : Nat → ScSt → List Char → List Char × ScSt
  | 0, s, acc => (acc, s)
  | f + 1, s, acc =>
    match s.cur with
    | some c =>
      if pyIsAlnumCh c then nameLoop f (getNextChar s) (acc ++ [c])
      else (acc, s)
    | none => (acc, s)

/-- `Scanner._get_name` (`scanner.py` lines 210–225), on states whose
current character is a letter (otherwise Python raises `ValueError`). -/
def pyGetName (fuel : Nat) (s : ScSt) : List Char × ScSt :=
  match s.cur with
  | some c => nameLoop fuel (getNextChar s) [c]
  | none => ([], s)

/-- The `while` loop of `Scanner._get_number` (`scanner.py` lines 240–242). -/
def numLoop : Nat → ScSt → List Char → List Char × ScSt
  | 0, s, acc => (acc, s)
  | f + 1, s, acc =>
    match s.cur with
    | some c =>
      if pyIsDigitCh c then numLoop f (getNextChar s) (acc ++ [c])
      else (acc, s)
    | none => (acc, s)

/-- `int(numstr, base=10)` on a string of ASCII digits. -/
def pyInt10 (l : List Char) : Nat := l.foldl (fun a c => 10 * a + (c.toNat - 48)) 0

/-- `Scanner._get_number` (`scanner.py` lines 227–243), on states whose
current character is a digit (otherwise Python raises `ValueError`). -/
def pyGetNumber (fuel : Nat) (s : ScSt) : Nat × ScSt :=
  match s.cur with
  | some c =>
    let r := numLoop fuel (getNextChar s) [c]
    (pyInt10 r.1, r.2)
  | none => (0, s)

/-- The name-classification branch of `Scanner.get_symbol` (`scanner.py`
lines 160–169). -/
def classifyName (nm : List Char) : SymType :=
  if nm.asString ∈ keywords then .KEYWORD
  else if pyStrIsUpper nm then
    (if pyStrIsAlpha nm then .NAME_CAPS else .NAME_CAPSNUM)
  else .NAME_ALNUM

/-- `Scanner.get_symbol` (`scanner.py` lines 140–208). -/
def getSymbol (fuel : Nat) (s0 : ScSt) : Symbol × ScSt :=
  let sA := if s0.lineNum = 0 ∧ s0.colNum = 0 then getNextChar s0 else s0
  let s := pySkip fuel sA
  match s.cur with
  | some c =>
    if pyIsAlphaCh c then
      let r := pyGetName fuel s
      let t := classifyName r.1
      let r2 := pyLookupOne r.2.names r.1.asString
      (⟨some t, r2.1, s.lineNum, s.colNum⟩, { r.2 with names := r2.2 })
    else if pyIsDigitCh c then
      let r := pyGetNumber fuel s
      (⟨some .NUMBER, some r.1, s.lineNum, s.colNum⟩, r.2)
    else if c = '-' then
      let s1 := getNextChar s
      if s1.cur = some '>' then
        (⟨some .CONNECTION_OP, none, s.lineNum, s.colNum⟩, getNextChar s1)
      else
        (⟨none, none, s.lineNum, s.colNum⟩, getNextChar s1)
    else if c = ';' then (⟨some .SEMICOLON, none, s.lineNum, s.colNum⟩, getNextChar s)
    else if c = ',' then (⟨some .COMMA, none, s.lineNum, s.colNum⟩, getNextChar s)
    else if c = '.' then (⟨some .DOT, none, s.lineNum, s.colNum⟩, getNextChar s)
    else if c = '(' then (⟨some .OPENPAREN, none, s.lineNum, s.colNum⟩, getNextChar s)
    else if c = ')' then (⟨some .CLOSEPAREN, none, s.lineNum, s.colNum⟩, getNextChar s)
    else (⟨none, none, s.lineNum, s.colNum⟩, getNextChar s)
  | none => (⟨some .EOF, none, s.lineNum, s.colNum⟩, s)

/-! ## Scanner: cursor well-formedness and the remaining input -/

/-- The characters from the current character (inclusive) to the end of
the file, as the scanner will visit them. Empty when the current
character is `''`. -/
def curRem (s : ScSt) : List Char :=
  if s.cur = none then []
  else (lineAt s).drop (s.colNum - 1) ++ (s.filelines.drop (s.lineNum + 1)).flatten

/-- Well-formed scanner states: the lines are those of a real file read by
`readlines` (hence non-empty), and the cursor is in one of the four shapes
reachable by `_get_next_char`: fresh on an empty file, fresh on a
non-empty file, just read the character at column `colNum` (1-based), or
exhausted at the end of the last line. -/
def ScWF (s : ScSt) : Prop :=
  (∀ l ∈ s.filelines, l ≠ []) ∧
  ((s.filelines = [] ∧ s.cur = none)
   ∨ (s.filelines ≠ [] ∧ s.lineNum = 0 ∧ s.colNum = 0 ∧ s.cur = none)
   ∨ (s.lineNum < s.filelines.length ∧ 1 ≤ s.colNum
       ∧ s.colNum ≤ (lineAt s).length
       ∧ (lineAt s)[s.colNum - 1]? = s.cur ∧ s.cur ≠ none)
   ∨ (s.filelines ≠ [] ∧ s.lineNum = s.filelines.length - 1
       ∧ s.colNum = (lineAt s).length ∧ s.cur = none))

theorem getNextChar_fields (s : ScSt) :
    (getNextChar s).names = s.names ∧ (getNextChar s).filelines = s.filelines := by
  unfold getNextChar
  split
  · exact ⟨rfl, rfl⟩
  · dsimp only
    split
    · split
      · exact ⟨rfl, rfl⟩
      · exact ⟨rfl, rfl⟩
    · exact ⟨rfl, rfl⟩

theorem ScSt.set_cur_none_self (s : ScSt) (h : s.cur = none) :
    { s with cur := none } = s := by
  cases s
  simp_all

theorem lineAt_mem (s : ScSt) (h : s.lineNum < s.filelines.length) :
    lineAt s ∈ s.filelines := by
  rw [lineAt, List.getD_eq_getElem _ _ h]
  exact List.getElem_mem h

/-- Unpacking `ScWF` at a state whose current character is real. -/
theorem scWF_mid (s : ScSt) (h : ScWF s) (c : Char) (hc : s.cur = some c) :
    s.lineNum < s.filelines.length ∧ 1 ≤ s.colNum
      ∧ s.colNum ≤ (lineAt s).length
      ∧ (lineAt s)[s.colNum - 1]? = some c := by
  rcases h.2 with h1 | h2 | h3 | h4
  · rw [h1.2] at hc; cases hc
  · rw [h2.2.2.2] at hc; cases hc
  · rcases h3 with ⟨hlt, hc1, hcle, hget, _⟩
    rw [hc] at hget
    exact ⟨hlt, hc1, hcle, hget⟩
  · rw [h4.2.2.2] at hc; cases hc

theorem curRem_head (s : ScSt) (h : ScWF s) : (curRem s).head? = s.cur := by
  match hc : s.cur with
  | none => simp [curRem, hc]
  | some c =>
    rcases scWF_mid s h c hc with ⟨hlt, hc1, hcle, hget⟩
    have hidx : s.colNum - 1 < (lineAt s).length := by omega
    rw [curRem, if_neg (by rw [hc]; simp)]
    rw [List.drop_eq_getElem_cons hidx, List.cons_append, List.head?_cons]
    rw [List.getElem?_eq_getElem hidx] at hget
    exact hget

theorem getNextChar_id_exhausted (s : ScSt) (h : ScWF s) (hc : s.cur = none)
    (hni : ¬(s.filelines ≠ [] ∧ s.lineNum = 0 ∧ s.colNum = 0)) :
    getNextChar s = s := by
  rcases h with ⟨hlines, hpos⟩
  rcases hpos with h1 | h2 | h3 | h4
  · unfold getNextChar
    rw [if_pos]
    rw [h1.1]
    rfl
  · exact absurd ⟨h2.1, h2.2.1, h2.2.2.1⟩ hni
  · exact absurd hc h3.2.2.2.2
  · rcases h4 with ⟨hne, hlast, hcol, _⟩
    unfold getNextChar
    have hlen0 : ¬(s.filelines.length = 0) := by
      simp only [List.length_eq_zero]
      exact hne
    rw [if_neg hlen0]
    dsimp only
    rw [if_pos (le_of_eq hcol.symm)]
    rw [if_pos (by omega)]
    exact ScSt.set_cur_none_self s hc

/-- The cursor transition lemma: reading the next character from a
well-formed mid-file state preserves well-formedness and advances the
remaining input by exactly one character. -/
theorem getNextChar_spec (s : ScSt) (h : ScWF s) (c : Char)
    (hc : s.cur = some c) :
    ScWF (getNextChar s) ∧ curRem (getNextChar s) = (curRem s).tail
    ∧ 1 ≤ (getNextChar s).colNum := by
  have hlines := h.1
  rcases scWF_mid s h c hc with ⟨hlt, hc1, hcle, hget⟩
  have hlenpos : 0 < s.filelines.length := Nat.lt_of_le_of_lt (Nat.zero_le _) hlt
  have hclne : lineAt s ≠ [] := hlines _ (lineAt_mem s hlt)
  have hcllen : 0 < (lineAt s).length := List.length_pos.2 hclne
  have hlen0 : ¬(s.filelines.length = 0) := by omega
  have hidx : s.colNum - 1 < (lineAt s).length := by omega
  have hdropne : (lineAt s).drop (s.colNum - 1) ≠ [] := by
    apply List.ne_nil_of_length_pos
    rw [List.length_drop]
    omega
  have hcurRem : curRem s =
      (lineAt s).drop (s.colNum - 1) ++ (s.filelines.drop (s.lineNum + 1)).flatten := by
    rw [curRem, if_neg (by rw [hc]; simp)]
  have htail : (curRem s).tail =
      (lineAt s).drop s.colNum ++ (s.filelines.drop (s.lineNum + 1)).flatten := by
    rw [hcurRem, List.tail_append_of_ne_nil hdropne, List.tail_drop]
    have : s.colNum - 1 + 1 = s.colNum := by omega
    rw [this]
  unfold getNextChar
  rw [if_neg hlen0]
  dsimp only
  by_cases hcol : (lineAt s).length ≤ s.colNum
  · -- end of the current line: colNum = length of the line
    have hcoleq : s.colNum = (lineAt s).length := le_antisymm hcle hcol
    rw [if_pos hcol]
    by_cases hlast : s.filelines.length - 1 ≤ s.lineNum
    · -- last line of the file: cur := '', position kept
      have hlineq : s.lineNum = s.filelines.length - 1 := by omega
      rw [if_pos hlast]
      refine ⟨?_, ?_, by simpa using hc1⟩
      · refine ⟨by simpa using hlines, ?_⟩
        right; right; right
        refine ⟨by simpa using (List.length_pos.1 hlenpos), by simpa using hlineq,
          ?_, rfl⟩
        show s.colNum = (lineAt { s with cur := none }).length
        have hla : lineAt { s with cur := none } = lineAt s := rfl
        rw [hla, hcoleq]
      · rw [htail]
        have h1 : curRem { s with cur := none } = [] := by
          rw [curRem, if_pos rfl]
        rw [h1, hcoleq, List.drop_length]
        have h2 : s.filelines.drop (s.lineNum + 1) = [] :=
          List.drop_eq_nil_of_le (by omega)
        rw [h2]
        rfl
    · -- move to the first character of the next line
      rw [if_neg hlast]
      have hlt2 : s.lineNum + 1 < s.filelines.length := by omega
      have hnl : s.filelines.getD (s.lineNum + 1) [] =
          s.filelines.get ⟨s.lineNum + 1, hlt2⟩ := by
        rw [List.getD_eq_getElem _ _ hlt2]
        simp
      have hnlmem : s.filelines.get ⟨s.lineNum + 1, hlt2⟩ ∈ s.filelines :=
        List.get_mem _ _ _
      have hnlne : s.filelines.get ⟨s.lineNum + 1, hlt2⟩ ≠ [] := hlines _ hnlmem
      have hnllen : 0 < (s.filelines.get ⟨s.lineNum + 1, hlt2⟩).length :=
        List.length_pos.2 hnlne
      have hcur' : (s.filelines.getD (s.lineNum + 1) [])[0]? =
          some ((s.filelines.get ⟨s.lineNum + 1, hlt2⟩).get ⟨0, hnllen⟩) := by
        rw [hnl, List.getElem?_eq_getElem hnllen]
        simp
      have hla : lineAt { s with lineNum := s.lineNum + 1, colNum := 1,
                                 cur := (s.filelines.getD (s.lineNum + 1) [])[0]? } =
          s.filelines.getD (s.lineNum + 1) [] := rfl
      refine ⟨⟨by simpa using hlines, ?_⟩, ?_, by simp⟩
      · right; right; left
        refine ⟨by simpa using hlt2, le_refl 1, ?_, ?_, ?_⟩
        · rw [hla, hnl]
          show 1 ≤ (s.filelines.get ⟨s.lineNum + 1, hlt2⟩).length
          omega
        · rw [hla]
          rfl
        · show (s.filelines.getD (s.lineNum + 1) [])[0]? ≠ none
          rw [hcur']
          simp
      · rw [htail]
        have hne' : ¬((s.filelines.getD (s.lineNum + 1) [])[0]? = none) := by
          rw [hcur']
          simp
        rw [curRem, if_neg hne', hla]
        dsimp only
        rw [hcoleq, List.drop_length, List.nil_append]
        have hdropcons : s.filelines.drop (s.lineNum + 1) =
            s.filelines.get ⟨s.lineNum + 1, hlt2⟩ :: s.filelines.drop (s.lineNum + 2) := by
          rw [List.drop_eq_getElem_cons hlt2]
          simp
        rw [hdropcons, List.flatten_cons, hnl]
        simp
  · -- middle of the line: read the character at index colNum
    rw [if_neg hcol]
    have hcollt : s.colNum < (lineAt s).length := by omega
    have hcur' : (lineAt s)[s.colNum]? = some ((lineAt s).get ⟨s.colNum, hcollt⟩) := by
      rw [List.getElem?_eq_getElem hcollt]
      simp
    have hla : lineAt { s with cur := (lineAt s)[s.colNum]?,
                               colNum := s.colNum + 1 } = lineAt s := rfl
    refine ⟨⟨by simpa using hlines, ?_⟩, ?_, by simp⟩
    · right; right; left
      refine ⟨by simpa using hlt, by show 1 ≤ s.colNum + 1; omega, ?_, ?_, ?_⟩
      · rw [hla]
        show s.colNum + 1 ≤ (lineAt s).length
        omega
      · rw [hla]
        show (lineAt s)[s.colNum + 1 - 1]? = (lineAt s)[s.colNum]?
        congr 1
      · show (lineAt s)[s.colNum]? ≠ none
        rw [hcur']
        simp
    · rw [htail]
      have hne' : ¬((lineAt s)[s.colNum]? = none) := by
        rw [hcur']
        simp
      rw [curRem, if_neg hne', hla]
      dsimp only
      congr 1

theorem skipLoop_succ (f : Nat) (inc : Bool) (s : ScSt) :
    skipLoop (f + 1) inc s =
      if pyIsSpaceO s.cur || inc then
        (if inc then
          if (getNextChar s).cur == some '\n' || (getNextChar s).cur == none then
            skipLoop f false (getNextChar (getNextChar s))
          else skipLoop f true (getNextChar s)
        else skipLoop f ((getNextChar s).cur == some '#') (getNextChar s))
      else s := rfl

theorem skipLoop_not_entered (fuel : Nat) (inc : Bool) (s : ScSt)
    (h : (pyIsSpaceO s.cur || inc) = false) : skipLoop fuel inc s = s := by
  cases fuel with
  | zero => rfl
  | succ f =>
    rw [skipLoop_succ, if_neg (by rw [h]; simp)]

/-- An initial read on a non-empty file: first character of the first
line, column 1. -/
theorem getNextChar_initial (s : ScSt) (h : ScWF s) (hne : s.filelines ≠ [])
    (hl : s.lineNum = 0) (hcol : s.colNum = 0) :
    ScWF (getNextChar s) ∧ 1 ≤ (getNextChar s).colNum := by
  have hlines := h.1
  have hlenpos : 0 < s.filelines.length := List.length_pos.2 hne
  have hlt : s.lineNum < s.filelines.length := by omega
  have hclne : lineAt s ≠ [] := hlines _ (lineAt_mem s hlt)
  have hcllen : 0 < (lineAt s).length := List.length_pos.2 hclne
  have hlen0 : ¬(s.filelines.length = 0) := by omega
  unfold getNextChar
  rw [if_neg hlen0]
  dsimp only
  rw [if_neg (by omega)]
  have hcollt : s.colNum < (lineAt s).length := by omega
  have hla : lineAt { s with cur := (lineAt s)[s.colNum]?,
                             colNum := s.colNum + 1 } = lineAt s := rfl
  refine ⟨⟨by simpa using hlines, ?_⟩, by show 1 ≤ s.colNum + 1; omega⟩
  right; right; left
  refine ⟨by simpa using hlt, by show 1 ≤ s.colNum + 1; omega, ?_, ?_, ?_⟩
  · rw [hla]
    show s.colNum + 1 ≤ (lineAt s).length
    omega
  · rw [hla]
    show (lineAt s)[s.colNum + 1 - 1]? = (lineAt s)[s.colNum]?
    congr 1
  · show (lineAt s)[s.colNum]? ≠ none
    rw [List.getElem?_eq_getElem hcollt]
    simp

theorem getNextChar_wf (s : ScSt) (h : ScWF s) : ScWF (getNextChar s) := by
  match hc : s.cur with
  | some c => exact (getNextChar_spec s h c hc).1
  | none =>
    rcases h.2 with h1 | h2 | h3 | h4
    · have : getNextChar s = s := by
        unfold getNextChar
        rw [if_pos]
        rw [h1.1]
        rfl
      rw [this]
      exact h
    · exact (getNextChar_initial s h h2.1 h2.2.1 h2.2.2.1).1
    · exact absurd hc h3.2.2.2.2
    · have hcol1 : 1 ≤ s.colNum := by
        rcases h4 with ⟨hne, hlast, hcol, _⟩
        have hlt : s.lineNum < s.filelines.length := by
          have := List.length_pos.2 hne
          omega
        have hclne : lineAt s ≠ [] := h.1 _ (lineAt_mem s hlt)
        have := List.length_pos.2 hclne
        omega
      have : getNextChar s = s :=
        getNextChar_id_exhausted s h hc (by
          intro hcontra
          omega)
      rw [this]
      exact h

theorem getNextChar_pos (s : ScSt) (h : 1 ≤ s.colNum) :
    1 ≤ (getNextChar s).colNum := by
  unfold getNextChar
  split
  · exact h
  · dsimp only
    split
    · split
      · exact h
      · show 1 ≤ 1
        omega
    · show 1 ≤ s.colNum + 1
      omega

/-- `colNum ≥ 1` holds except in the fresh state of a non-empty file. -/
def ScPos (s : ScSt) : Prop := s.filelines = [] ∨ 1 ≤ s.colNum

theorem getNextChar_scPos (s : ScSt) (h : ScPos s) : ScPos (getNextChar s) := by
  rcases h with h | h
  · left
    rw [(getNextChar_fields s).2]
    exact h
  · right
    exact getNextChar_pos s h

theorem skipLoop_wf (fuel : Nat) :
    ∀ (inc : Bool) (s : ScSt), ScWF s → ScPos s →
      ScWF (skipLoop fuel inc s) ∧ ScPos (skipLoop fuel inc s)
      ∧ (skipLoop fuel inc s).names = s.names
      ∧ (skipLoop fuel inc s).filelines = s.filelines := by
  induction fuel with
  | zero =>
    intro inc s hw hp
    exact ⟨hw, hp, rfl, rfl⟩
  | succ f ih =>
    intro inc s hw hp
    rw [skipLoop_succ]
    by_cases hcond : (pyIsSpaceO s.cur || inc) = true
    · rw [if_pos hcond]
      have hw1 := getNextChar_wf s hw
      have hp1 := getNextChar_scPos s hp
      have hf1 := getNextChar_fields s
      split
      · split
        · have hw2 := getNextChar_wf _ hw1
          have hp2 := getNextChar_scPos _ hp1
          have hf2 := getNextChar_fields (getNextChar s)
          have := ih false (getNextChar (getNextChar s)) hw2 hp2
          refine ⟨this.1, this.2.1, ?_, ?_⟩
          · rw [this.2.2.1, hf2.1, hf1.1]
          · rw [this.2.2.2, hf2.2, hf1.2]
        · have := ih true (getNextChar s) hw1 hp1
          refine ⟨this.1, this.2.1, ?_, ?_⟩
          · rw [this.2.2.1, hf1.1]
          · rw [this.2.2.2, hf1.2]
      · have := ih ((getNextChar s).cur == some '#') (getNextChar s) hw1 hp1
        refine ⟨this.1, this.2.1, ?_, ?_⟩
        · rw [this.2.2.1, hf1.1]
        · rw [this.2.2.2, hf1.2]
    · rw [if_neg hcond]
      exact ⟨hw, hp, rfl, rfl⟩

theorem classifyName_ne_eof (nm : List Char) : classifyName nm ≠ .EOF := by
  unfold classifyName
  split
  · simp
  · split
    · split <;> simp
    · simp

/-- `get_symbol` on a state whose current character is `''` and whose
cursor no longer moves: the EOF symbol at the current position, state
unchanged. -/
theorem getSymbol_at_exhausted (fuel : Nat) (s : ScSt) (hc : s.cur = none)
    (hstay : getNextChar s = s) :
    getSymbol fuel s = (⟨some .EOF, none, s.lineNum, s.colNum⟩, s) := by
  have hsA : (if s.lineNum = 0 ∧ s.colNum = 0 then getNextChar s else s) = s := by
    split
    · exact hstay
    · rfl
  have hskip : pySkip fuel s = s := by
    unfold pySkip
    apply skipLoop_not_entered
    rw [hc]
    rfl
  show (match (pySkip fuel (if s.lineNum = 0 ∧ s.colNum = 0 then getNextChar s
      else s)).cur with
    | some c => _
    | none => _ : Symbol × ScSt) = _
  rw [hsA, hskip, hc]

/-- A well-formed state is either at column ≥ 1 (or on an empty file), or
it is the fresh state of a non-empty file. -/
theorem scWF_pos_or_initial (s : ScSt) (h : ScWF s) :
    ScPos s ∨ (s.filelines ≠ [] ∧ s.lineNum = 0 ∧ s.colNum = 0 ∧ s.cur = none) := by
  rcases h.2 with h1 | h2 | h3 | h4
  · exact Or.inl (Or.inl h1.1)
  · exact Or.inr h2
  · exact Or.inl (Or.inr h3.2.1)
  · rcases h4 with ⟨hne, hlast, hcol, hcur⟩
    left; right
    have hlt : s.lineNum < s.filelines.length := by
      have := List.length_pos.2 hne
      omega
    have hclne : lineAt s ≠ [] := h.1 _ (lineAt_mem s hlt)
    have := List.length_pos.2 hclne
    omega

/-- The state of the scanner after the initial-read-and-skip phase of
`get_symbol` is well-formed and at column ≥ 1 (or on an empty file). -/
theorem getSymbol_phase_wf (fuel : Nat) (s : ScSt) (hwf : ScWF s) :
    ScWF (pySkip fuel (if s.lineNum = 0 ∧ s.colNum = 0 then getNextChar s else s))
    ∧ ScPos (pySkip fuel (if s.lineNum = 0 ∧ s.colNum = 0 then getNextChar s else s)) := by
  have hwfA : ScWF (if s.lineNum = 0 ∧ s.colNum = 0 then getNextChar s else s) := by
    split
    · exact getNextChar_wf s hwf
    · exact hwf
  have hposA : ScPos (if s.lineNum = 0 ∧ s.colNum = 0 then getNextChar s else s) := by
    rcases scWF_pos_or_initial s hwf with hp | hinit
    · split
      · exact getNextChar_scPos s hp
      · exact hp
    · rw [if_pos ⟨hinit.2.1, hinit.2.2.1⟩]
      exact Or.inr (getNextChar_initial s hwf hinit.1 hinit.2.1 hinit.2.2.1).2
  have := skipLoop_wf fuel
    ((if s.lineNum = 0 ∧ s.colNum = 0 then getNextChar s else s).cur == some '#')
    (if s.lineNum = 0 ∧ s.colNum = 0 then getNextChar s else s) hwfA hposA
  exact ⟨this.1, this.2.1⟩

/-- Inversion: when `get_symbol` returns an EOF-typed symbol, the final
state has current character `''`, the symbol carries the final position
and a `None` id, and the final state is well-formed with column ≥ 1 (on a
non-empty file). -/
theorem getSymbol_eof_inv (fuel : Nat) (s : ScSt) (hwf : ScWF s)
    (sym : Symbol) (s2 : ScSt) (he : getSymbol fuel s = (sym, s2))
    (ht : sym.symtype = some SymType.EOF) :
    s2.cur = none ∧ sym.linenum = s2.lineNum ∧ sym.colnum = s2.colNum
    ∧ sym.symid = none ∧ ScWF s2 ∧ ScPos s2 := by
  have hphase := getSymbol_phase_wf fuel s hwf
  set sB := pySkip fuel (if s.lineNum = 0 ∧ s.colNum = 0 then getNextChar s else s)
    with hsBdef
  simp only [getSymbol] at he
  rw [← hsBdef] at he
  split at he
  · -- the skip phase stopped at a real character: every branch of the
    -- dispatch assigns a symbol type other than EOF
    exfalso
    split at he
    · rw [Prod.mk.injEq] at he
      rw [← he.1] at ht
      have ht2 : classifyName (pyGetName fuel sB).1 = SymType.EOF := by
        simpa using ht
      exact classifyName_ne_eof _ ht2
    · split at he
      · rw [Prod.mk.injEq] at he
        rw [← he.1] at ht
        simp at ht
      · split at he
        · split at he <;>
            (rw [Prod.mk.injEq] at he
             rw [← he.1] at ht
             simp at ht)
        · split at he
          · rw [Prod.mk.injEq] at he
            rw [← he.1] at ht
            simp at ht
          · split at he
            · rw [Prod.mk.injEq] at he
              rw [← he.1] at ht
              simp at ht
            · split at he
              · rw [Prod.mk.injEq] at he
                rw [← he.1] at ht
                simp at ht
              · split at he
                · rw [Prod.mk.injEq] at he
                  rw [← he.1] at ht
                  simp at ht
                · split at he
                  · rw [Prod.mk.injEq] at he
                    rw [← he.1] at ht
                    simp at ht
                  · rw [Prod.mk.injEq] at he
                    rw [← he.1] at ht
                    simp at ht
  next hcur =>
    rw [Prod.mk.injEq] at he
    rcases he with ⟨h1, h2⟩
    subst h1
    subst h2
    exact ⟨hcur, rfl, rfl, rfl, hphase.1, hphase.2⟩

/-- C7. Once `get_symbol` has returned an EOF symbol, every further call
returns an EOF symbol with the same line and column numbers (and a `None`
id) and leaves the scanner state unchanged; on an empty file the very
first call already returns EOF at line 0, column 0. -/
theorem getSymbol_eof_stable :
    (∀ (fuel fuel2 : Nat) (s : ScSt) (sym : Symbol) (s2 : ScSt), ScWF s →
        getSymbol fuel s = (sym, s2) → sym.symtype = some SymType.EOF →
        getSymbol fuel2 s2 = (⟨some SymType.EOF, none, sym.linenum, sym.colnum⟩, s2))
    ∧ (∀ (fuel : Nat) (ns : List String),
        getSymbol fuel (initScanner [] ns) =
          (⟨some SymType.EOF, none, 0, 0⟩, initScanner [] ns)) := by
  constructor
  · intro fuel fuel2 s sym s2 hwf he ht
    rcases getSymbol_eof_inv fuel s hwf sym s2 he ht with
      ⟨hcur, hline, hcol, _, hwf2, hpos2⟩
    have hstay : getNextChar s2 = s2 := by
      rcases hpos2 with hfe | hcolpos
      · unfold getNextChar
        rw [if_pos]
        rw [hfe]
        rfl
      · exact getNextChar_id_exhausted s2 hwf2 hcur (by omega)
    rw [hline, hcol]
    exact getSymbol_at_exhausted fuel2 s2 hcur hstay
  · intro fuel ns
    exact getSymbol_at_exhausted fuel (initScanner [] ns) rfl rfl

/-- Witness for C7: on the file `["ab"]` (a single two-character line with
no trailing newline), the second call to `get_symbol` returns EOF at line
0, column 2, and every further call repeats it; the empty-file conjunct is
exercised at fuel 5. -/
theorem getSymbol_eof_stable_witness :
    getSymbol 7 ((getSymbol 10 ((getSymbol 10 (initScanner [['a', 'b']] [])).2)).2) =
      (⟨some SymType.EOF, none, 0, 2⟩,
        (getSymbol 10 ((getSymbol 10 (initScanner [['a', 'b']] [])).2)).2)
    ∧ getSymbol 5 (initScanner [] ["x"]) =
        (⟨some SymType.EOF, none, 0, 0⟩, initScanner [] ["x"]) := by
  constructor
  · have hwf : ScWF ((getSymbol 10 (initScanner [['a', 'b']] [])).2) := by
      constructor
      · decide
      · right; right; right
        refine ⟨by decide, by decide, by decide, by decide⟩
    have ht : (getSymbol 10 ((getSymbol 10 (initScanner [['a', 'b']] [])).2)).1.symtype =
        some SymType.EOF := by decide
    have hl : (getSymbol 10 ((getSymbol 10 (initScanner [['a', 'b']] [])).2)).1.linenum =
        0 := by decide
    have hc : (getSymbol 10 ((getSymbol 10 (initScanner [['a', 'b']] [])).2)).1.colnum =
        2 := by decide
    have := getSymbol_eof_stable.1 10 7 ((getSymbol 10 (initScanner [['a', 'b']] [])).2)
      (getSymbol 10 ((getSymbol 10 (initScanner [['a', 'b']] [])).2)).1
      (getSymbol 10 ((getSymbol 10 (initScanner [['a', 'b']] [])).2)).2 hwf rfl ht
    rw [hl, hc] at this
    exact this
  · exact getSymbol_eof_stable.2 5 ["x"]

theorem list_drop_two (l : List α) : l.drop 2 = l.tail.tail := by
  rw [← List.drop_one, ← List.drop_one, List.drop_drop]

/-- C10. When `get_symbol` meets a `'-'` that is not followed by `'>'`
(`scanner.py` lines 176–180), it returns a symbol with both type and id
unassigned (`None`), and it advances the cursor twice, so the character
immediately after the `'-'` is consumed and is never the start of a later
symbol: the remaining input after the call is the remaining input before
it with two characters dropped. -/
theorem getSymbol_lone_dash (fuel : Nat) (s : ScSt) (hwf : ScWF s)
    (hni : ¬(s.lineNum = 0 ∧ s.colNum = 0))
    (hc : s.cur = some '-') (hgt : (getNextChar s).cur ≠ some '>') :
    getSymbol fuel s = (⟨none, none, s.lineNum, s.colNum⟩,
      getNextChar (getNextChar s))
    ∧ curRem (getNextChar (getNextChar s)) = (curRem s).drop 2 := by
  have hskip : pySkip fuel s = s := by
    unfold pySkip
    apply skipLoop_not_entered
    rw [hc]
    rfl
  have h1 := getNextChar_spec s hwf '-' hc
  constructor
  · simp only [getSymbol]
    rw [if_neg hni, hskip, hc]
    dsimp only
    rw [if_neg (by decide), if_neg (by decide), if_pos rfl, if_neg hgt]
  · rcases h1 with ⟨hwf1, hrem1, hpos1⟩
    rw [list_drop_two]
    match hc1 : (getNextChar s).cur with
    | some c2 =>
      have h2 := getNextChar_spec (getNextChar s) hwf1 c2 hc1
      rw [h2.2.1, hrem1]
    | none =>
      have hid : getNextChar (getNextChar s) = getNextChar s :=
        getNextChar_id_exhausted _ hwf1 hc1 (by
          intro hcontra
          omega)
      rw [hid]
      have hnil : curRem (getNextChar s) = [] := by
        rw [curRem, if_pos hc1]
      rw [hnil]
      rw [hnil] at hrem1
      rw [← hrem1]
      rfl

/-- Witness for C10 on the file line `"-ab"`: the first call returns the
unassigned symbol at line 0, column 1, and consumes both `'-'` and `'a'`. -/
theorem getSymbol_lone_dash_witness :
    getSymbol 9 ((getNextChar (initScanner [['-', 'a', 'b']] []))) =
      (⟨none, none, 0, 1⟩,
        getNextChar (getNextChar (getNextChar (initScanner [['-', 'a', 'b']] []))))
    ∧ curRem (getNextChar (getNextChar (getNextChar (initScanner [['-', 'a', 'b']] [])))) =
        (curRem (getNextChar (initScanner [['-', 'a', 'b']] []))).drop 2 := by
  have h := getSymbol_lone_dash 9 (getNextChar (initScanner [['-', 'a', 'b']] []))
    (by
      constructor
      · decide
      · right; right; left
        refine ⟨by decide, by decide, by decide, by decide, by decide⟩)
    (by decide) (by decide) (by decide)
  exact h

theorem curRem_cons (s : ScSt) (hwf : ScWF s) (c : Char) (hc : s.cur = some c) :
    ∃ xs, curRem s = c :: xs := by
  have hhead := curRem_head s hwf
  rw [hc] at hhead
  cases hE : curRem s with
  | nil =>
    rw [hE] at hhead
    cases hhead
  | cons x xs =>
    rw [hE] at hhead
    simp only [List.head?_cons, Option.some.injEq] at hhead
    exact ⟨xs, by rw [hhead]⟩

theorem pyIsDigitCh_not_alpha (c : Char) (h : pyIsDigitCh c = true) :
    pyIsAlphaCh c = false := by
  simp only [pyIsDigitCh, decide_eq_true_eq] at h
  simp only [pyIsAlphaCh, pyIsUpperCh, pyIsLowerCh, Bool.or_eq_false_iff,
    decide_eq_false_iff_not]
  omega

theorem pyIsDigitCh_skip_false (c : Char) (h : pyIsDigitCh c = true) :
    (pyIsSpaceO (some c) || (some c == some '#')) = false := by
  have h2 := h
  simp only [pyIsDigitCh, decide_eq_true_eq] at h2
  simp only [pyIsSpaceO, pyIsSpaceCh, Bool.or_eq_false_iff,
    decide_eq_false_iff_not, beq_eq_false_iff_ne, ne_eq, Option.some.injEq]
  constructor
  · omega
  · intro he
    subst he
    exact absurd h (by decide)

theorem pyIsAlphaCh_skip_false (c : Char) (h : pyIsAlphaCh c = true) :
    (pyIsSpaceO (some c) || (some c == some '#')) = false := by
  have h2 := h
  simp only [pyIsAlphaCh, pyIsUpperCh, pyIsLowerCh, Bool.or_eq_true,
    decide_eq_true_eq] at h2
  simp only [pyIsSpaceO, pyIsSpaceCh, Bool.or_eq_false_iff,
    decide_eq_false_iff_not, beq_eq_false_iff_ne, ne_eq, Option.some.injEq]
  constructor
  · omega
  · intro he
    subst he
    exact absurd h (by decide)

theorem numLoop_spec (n : Nat) :
    ∀ (s : ScSt) (acc : List Char), ScWF s → (curRem s).length ≤ n →
      (numLoop n s acc).1 = acc ++ (curRem s).takeWhile pyIsDigitCh
      ∧ (numLoop n s acc).2.names = s.names := by
  induction n with
  | zero =>
    intro s acc _ hlen
    have h0 : curRem s = [] := List.length_eq_zero.1 (by omega)
    rw [h0]
    exact ⟨by simp [numLoop], rfl⟩
  | succ n ih =>
    intro s acc hwf hlen
    match hc : s.cur with
    | none =>
      have h0 : curRem s = [] := by rw [curRem, if_pos hc]
      have hstep : numLoop (n + 1) s acc = (acc, s) := by
        simp only [numLoop, hc]
      rw [hstep, h0]
      exact ⟨by simp, rfl⟩
    | some c =>
      obtain ⟨xs, hxs⟩ := curRem_cons s hwf c hc
      by_cases hd : pyIsDigitCh c = true
      · have hstep : numLoop (n + 1) s acc = numLoop n (getNextChar s) (acc ++ [c]) := by
          simp only [numLoop, hc, hd, if_true]
        obtain ⟨hwf1, hrem1, _⟩ := getNextChar_spec s hwf c hc
        have hlen1 : (curRem (getNextChar s)).length ≤ n := by
          rw [hrem1, hxs]
          rw [hxs] at hlen
          simp only [List.tail_cons]
          simp only [List.length_cons] at hlen
          omega
        have hrec := ih (getNextChar s) (acc ++ [c]) hwf1 hlen1
        rw [hstep]
        refine ⟨?_, by rw [hrec.2, (getNextChar_fields s).1]⟩
        rw [hrec.1, hrem1, hxs]
        simp only [List.tail_cons, List.takeWhile_cons_of_pos hd]
        simp
      · have hstep : numLoop (n + 1) s acc = (acc, s) := by
          simp only [numLoop, hc]
          rw [if_neg hd]
        rw [hstep, hxs, List.takeWhile_cons_of_neg hd]
        exact ⟨by simp, rfl⟩

theorem nameLoop_spec (n : Nat) :
    ∀ (s : ScSt) (acc : List Char), ScWF s → (curRem s).length ≤ n →
      (nameLoop n s acc).1 = acc ++ (curRem s).takeWhile pyIsAlnumCh
      ∧ (nameLoop n s acc).2.names = s.names := by
  induction n with
  | zero =>
    intro s acc _ hlen
    have h0 : curRem s = [] := List.length_eq_zero.1 (by omega)
    rw [h0]
    exact ⟨by simp [nameLoop], rfl⟩
  | succ n ih =>
    intro s acc hwf hlen
    match hc : s.cur with
    | none =>
      have h0 : curRem s = [] := by rw [curRem, if_pos hc]
      have hstep : nameLoop (n + 1) s acc = (acc, s) := by
        simp only [nameLoop, hc]
      rw [hstep, h0]
      exact ⟨by simp, rfl⟩
    | some c =>
      obtain ⟨xs, hxs⟩ := curRem_cons s hwf c hc
      by_cases hd : pyIsAlnumCh c = true
      · have hstep : nameLoop (n + 1) s acc = nameLoop n (getNextChar s) (acc ++ [c]) := by
          simp only [nameLoop, hc, hd, if_true]
        obtain ⟨hwf1, hrem1, _⟩ := getNextChar_spec s hwf c hc
        have hlen1 : (curRem (getNextChar s)).length ≤ n := by
          rw [hrem1, hxs]
          rw [hxs] at hlen
          simp only [List.tail_cons]
          simp only [List.length_cons] at hlen
          omega
        have hrec := ih (getNextChar s) (acc ++ [c]) hwf1 hlen1
        rw [hstep]
        refine ⟨?_, by rw [hrec.2, (getNextChar_fields s).1]⟩
        rw [hrec.1, hrem1, hxs]
        simp only [List.tail_cons, List.takeWhile_cons_of_pos hd]
        simp
      · have hstep : nameLoop (n + 1) s acc = (acc, s) := by
          simp only [nameLoop, hc]
          rw [if_neg hd]
        rw [hstep, hxs, List.takeWhile_cons_of_neg hd]
        exact ⟨by simp, rfl⟩

/-- C9. When `get_symbol` meets a digit, the returned symbol is a NUMBER
whose `symid` is directly the base-10 value of the maximal digit string
starting at the cursor (`int(numstr, base=10)`), and the `Names` table is
left untouched: the value is not an id interned in the table. -/
theorem getSymbol_number (fuel : Nat) (s : ScSt) (hwf : ScWF s)
    (hni : ¬(s.lineNum = 0 ∧ s.colNum = 0)) (c : Char) (hc : s.cur = some c)
    (hd : pyIsDigitCh c = true) (hfuel : (curRem s).length ≤ fuel + 1) :
    (getSymbol fuel s).1.symtype = some SymType.NUMBER
    ∧ (getSymbol fuel s).1.symid =
        some (pyInt10 ((curRem s).takeWhile pyIsDigitCh))
    ∧ (getSymbol fuel s).2.names = s.names := by
  have hskip : pySkip fuel s = s := by
    unfold pySkip
    apply skipLoop_not_entered
    rw [hc]
    exact pyIsDigitCh_skip_false c hd
  obtain ⟨xs, hxs⟩ := curRem_cons s hwf c hc
  obtain ⟨hwf1, hrem1, _⟩ := getNextChar_spec s hwf c hc
  have hlen1 : (curRem (getNextChar s)).length ≤ fuel := by
    rw [hrem1, hxs]
    rw [hxs] at hfuel
    simp only [List.tail_cons]
    simp only [List.length_cons] at hfuel
    omega
  have hloop := numLoop_spec fuel (getNextChar s) [c] hwf1 hlen1
  have hnum : pyGetNumber fuel s =
      (pyInt10 ((curRem s).takeWhile pyIsDigitCh), (numLoop fuel (getNextChar s) [c]).2) := by
    simp only [pyGetNumber, hc]
    rw [Prod.mk.injEq]
    refine ⟨?_, rfl⟩
    rw [hloop.1, hrem1, hxs]
    simp only [List.tail_cons, List.takeWhile_cons_of_pos hd]
    simp
  have heq : getSymbol fuel s =
      (⟨some SymType.NUMBER, some (pyGetNumber fuel s).1, s.lineNum, s.colNum⟩,
        (pyGetNumber fuel s).2) := by
    simp only [getSymbol]
    rw [if_neg hni, hskip, hc]
    dsimp only
    rw [if_neg (by rw [pyIsDigitCh_not_alpha c hd]; simp), if_pos hd]
  rw [heq, hnum]
  refine ⟨rfl, rfl, ?_⟩
  show (numLoop fuel (getNextChar s) [c]).2.names = s.names
  rw [hloop.2, (getNextChar_fields s).1]

/-- Witness for C9 on the file line `"10x"`: the first symbol is the
number 10 and the names table stays empty. -/
theorem getSymbol_number_witness :
    (getSymbol 9 (getNextChar (initScanner [['1', '0', 'x']] []))).1.symtype =
      some SymType.NUMBER
    ∧ (getSymbol 9 (getNextChar (initScanner [['1', '0', 'x']] []))).1.symid =
        some (pyInt10 ((curRem (getNextChar (initScanner [['1', '0', 'x']] []))).takeWhile
          pyIsDigitCh))
    ∧ (getSymbol 9 (getNextChar (initScanner [['1', '0', 'x']] []))).2.names =
        (getNextChar (initScanner [['1', '0', 'x']] [])).names :=
  getSymbol_number 9 (getNextChar (initScanner [['1', '0', 'x']] []))
    (by
      constructor
      · decide
      · right; right; left
        refine ⟨by decide, by decide, by decide, by decide, by decide⟩)
    (by decide) '1' (by decide) (by decide) (by decide)

theorem bool_imp_helper (a b : Bool) :
    (a = false ∨ b = true) ↔ (a = true → b = true) := by
  cases a <;> cases b <;> simp

theorem pyIsUpperCh_alpha (c : Char) (h : pyIsUpperCh c = true) :
    pyIsAlphaCh c = true := by
  rw [pyIsAlphaCh, h]
  rfl

theorem pyIsAlphaCh_not_digit (c : Char) (h : pyIsAlphaCh c = true) :
    pyIsDigitCh c = false := by
  simp only [pyIsAlphaCh, pyIsUpperCh, pyIsLowerCh, Bool.or_eq_true,
    decide_eq_true_eq] at h
  simp only [pyIsDigitCh, decide_eq_false_iff_not]
  omega

theorem pyStrIsUpper_iff (nm : List Char) :
    pyStrIsUpper nm = true ↔
      (∃ x ∈ nm, pyIsAlphaCh x = true)
      ∧ ∀ x ∈ nm, pyIsAlphaCh x = true → pyIsUpperCh x = true := by
  simp only [pyStrIsUpper, Bool.and_eq_true, List.any_eq_true, List.all_eq_true,
    Bool.or_eq_true, Bool.not_eq_true']
  simp only [bool_imp_helper]

theorem pyStrIsAlpha_iff (nm : List Char) :
    pyStrIsAlpha nm = true ↔ nm ≠ [] ∧ ∀ x ∈ nm, pyIsAlphaCh x = true := by
  simp only [pyStrIsAlpha, Bool.and_eq_true, List.all_eq_true,
    Bool.not_eq_true', List.isEmpty_eq_false]

/-- The lexical classification of a scanned name, expressed through the
categories of the specification: a name is a letter followed by letters
and digits; keywords are recognised first; otherwise uppercase letters
only give `NAME_CAPS`; uppercase letters and digits with at least one
digit give `NAME_CAPSNUM`; anything else gives `NAME_ALNUM`. -/
theorem classifyName_spec (c : Char) (xs : List Char)
    (hc : pyIsAlphaCh c = true)
    (hall : ∀ x ∈ c :: xs, pyIsAlnumCh x = true) :
    (classifyName (c :: xs) = SymType.KEYWORD ↔ (c :: xs).asString ∈ keywords)
    ∧ ((c :: xs).asString ∉ keywords →
        ((classifyName (c :: xs) = SymType.NAME_CAPS ↔
            ∀ x ∈ c :: xs, pyIsUpperCh x = true)
         ∧ (classifyName (c :: xs) = SymType.NAME_CAPSNUM ↔
             (∀ x ∈ c :: xs, pyIsUpperCh x = true ∨ pyIsDigitCh x = true)
             ∧ ∃ x ∈ c :: xs, pyIsDigitCh x = true)
         ∧ (classifyName (c :: xs) = SymType.NAME_ALNUM ↔
             ¬(∀ x ∈ c :: xs, pyIsUpperCh x = true)
             ∧ ¬((∀ x ∈ c :: xs, pyIsUpperCh x = true ∨ pyIsDigitCh x = true)
                 ∧ ∃ x ∈ c :: xs, pyIsDigitCh x = true)))) := by
  have halnum : ∀ x ∈ c :: xs, pyIsAlphaCh x = true ∨ pyIsDigitCh x = true := by
    intro x hx
    have := hall x hx
    simpa only [pyIsAlnumCh, Bool.or_eq_true] using this
  -- the `isupper` test, under the name shape
  have hupper : pyStrIsUpper (c :: xs) = true ↔
      ∀ x ∈ c :: xs, pyIsUpperCh x = true ∨ pyIsDigitCh x = true := by
    rw [pyStrIsUpper_iff]
    constructor
    · rintro ⟨_, h2⟩ x hx
      rcases halnum x hx with ha | hd
      · exact Or.inl (h2 x hx ha)
      · exact Or.inr hd
    · intro h
      refine ⟨⟨c, List.mem_cons_self c xs, hc⟩, ?_⟩
      intro x hx ha
      rcases h x hx with hu | hd
      · exact hu
      · rw [pyIsAlphaCh_not_digit x ha] at hd
        cases hd
  -- the `isalpha` test, under the name shape
  have halpha : pyStrIsAlpha (c :: xs) = true ↔
      ∀ x ∈ c :: xs, pyIsDigitCh x = false := by
    rw [pyStrIsAlpha_iff]
    constructor
    · rintro ⟨_, h2⟩ x hx
      exact pyIsAlphaCh_not_digit x (h2 x hx)
    · intro h
      refine ⟨by simp, ?_⟩
      intro x hx
      rcases halnum x hx with ha | hd
      · exact ha
      · rw [h x hx] at hd
        cases hd
  unfold classifyName
  by_cases hkw : (c :: xs).asString ∈ keywords
  · rw [if_pos hkw]
    refine ⟨by simp [hkw], fun h => absurd hkw h⟩
  · rw [if_neg hkw]
    refine ⟨?_, fun _ => ?_⟩
    · constructor
      · intro h
        split at h
        · split at h <;> cases h
        · cases h
      · intro h
        exact absurd h hkw
    · by_cases hU : pyStrIsUpper (c :: xs) = true
      · rw [if_pos hU]
        by_cases hA : pyStrIsAlpha (c :: xs) = true
        · rw [if_pos hA]
          have hcaps : ∀ x ∈ c :: xs, pyIsUpperCh x = true := by
            intro x hx
            rcases (hupper.1 hU) x hx with hu | hd
            · exact hu
            · rw [(halpha.1 hA) x hx] at hd
              cases hd
          refine ⟨⟨fun _ => hcaps, fun _ => rfl⟩, ?_, ?_⟩
          · constructor
            · intro h
              cases h
            · rintro ⟨_, x, hx, hd⟩
              rw [(halpha.1 hA) x hx] at hd
              cases hd
          · constructor
            · intro h
              cases h
            · rintro ⟨h1, _⟩
              exact absurd hcaps h1
        · rw [if_neg hA]
          have hdig : ∃ x ∈ c :: xs, pyIsDigitCh x = true := by
            by_contra hno
            push_neg at hno
            apply hA
            rw [halpha]
            intro x hx
            have := hno x hx
            cases hD : pyIsDigitCh x
            · rfl
            · exact absurd hD this
          refine ⟨?_, ⟨fun _ => ⟨hupper.1 hU, hdig⟩, fun _ => rfl⟩, ?_⟩
          · constructor
            · intro h
              cases h
            · intro hcaps
              rcases hdig with ⟨x, hx, hd⟩
              have := hcaps x hx
              have h2 := pyIsAlphaCh_not_digit x (pyIsUpperCh_alpha x this)
              rw [h2] at hd
              cases hd
          · constructor
            · intro h
              cases h
            · rintro ⟨_, h2⟩
              exact absurd ⟨hupper.1 hU, hdig⟩ h2
      · rw [if_neg hU]
        have hnotall : ¬(∀ x ∈ c :: xs, pyIsUpperCh x = true ∨ pyIsDigitCh x = true) := by
          intro h
          exact hU (hupper.2 h)
        refine ⟨?_, ?_, ?_⟩
        · constructor
          · intro h
            cases h
          · intro hcaps
            exfalso
            apply hnotall
            intro x hx
            exact Or.inl (hcaps x hx)
        · constructor
          · intro h
            cases h
          · rintro ⟨h1, _⟩
            exact absurd h1 hnotall
        · constructor
          · intro _
            refine ⟨?_, ?_⟩
            · intro hcaps
              apply hnotall
              intro x hx
              exact Or.inl (hcaps x hx)
            · rintro ⟨h1, _⟩
              exact hnotall h1
          · intro _
            rfl

/-- C5. For every name scanned by `get_symbol` (a letter followed by
letters and digits — the maximal alphanumeric run at the cursor): the
symbol type is `KEYWORD` exactly when the name is one of
`DEVICE`, `CONNECT`, `MONITOR`, `END`; otherwise it is `NAME_CAPS`
exactly when the name consists of uppercase letters only, `NAME_CAPSNUM`
exactly when it consists of uppercase letters and digits with at least
one digit, and `NAME_ALNUM` otherwise. -/
theorem getSymbol_name_classification (fuel : Nat) (s : ScSt) (hwf : ScWF s)
    (hni : ¬(s.lineNum = 0 ∧ s.colNum = 0)) (c : Char) (hc : s.cur = some c)
    (hal : pyIsAlphaCh c = true) (hfuel : (curRem s).length ≤ fuel + 1)
    (nm : List Char) (hnm : nm = (curRem s).takeWhile pyIsAlnumCh) :
    ((getSymbol fuel s).1.symtype = some SymType.KEYWORD ↔ nm.asString ∈ keywords)
    ∧ (nm.asString ∉ keywords →
        (((getSymbol fuel s).1.symtype = some SymType.NAME_CAPS ↔
            ∀ x ∈ nm, pyIsUpperCh x = true)
         ∧ ((getSymbol fuel s).1.symtype = some SymType.NAME_CAPSNUM ↔
             (∀ x ∈ nm, pyIsUpperCh x = true ∨ pyIsDigitCh x = true)
             ∧ ∃ x ∈ nm, pyIsDigitCh x = true)
         ∧ ((getSymbol fuel s).1.symtype = some SymType.NAME_ALNUM ↔
             ¬(∀ x ∈ nm, pyIsUpperCh x = true)
             ∧ ¬((∀ x ∈ nm, pyIsUpperCh x = true ∨ pyIsDigitCh x = true)
                 ∧ ∃ x ∈ nm, pyIsDigitCh x = true)))) := by
  have hskip : pySkip fuel s = s := by
    unfold pySkip
    apply skipLoop_not_entered
    rw [hc]
    exact pyIsAlphaCh_skip_false c hal
  have halnumc : pyIsAlnumCh c = true := by
    rw [pyIsAlnumCh, hal]
    rfl
  obtain ⟨xs0, hxs0⟩ := curRem_cons s hwf c hc
  obtain ⟨hwf1, hrem1, _⟩ := getNextChar_spec s hwf c hc
  have hlen1 : (curRem (getNextChar s)).length ≤ fuel := by
    rw [hrem1, hxs0]
    rw [hxs0] at hfuel
    simp only [List.tail_cons]
    simp only [List.length_cons] at hfuel
    omega
  have hloop := nameLoop_spec fuel (getNextChar s) [c] hwf1 hlen1
  have hname : (pyGetName fuel s).1 = nm := by
    simp only [pyGetName, hc]
    rw [hloop.1, hrem1, hxs0]
    simp only [List.tail_cons]
    rw [hnm, hxs0, List.takeWhile_cons_of_pos halnumc]
    simp
  have hsym : (getSymbol fuel s).1.symtype = some (classifyName nm) := by
    have heq : getSymbol fuel s =
        (⟨some (classifyName (pyGetName fuel s).1),
          (pyLookupOne (pyGetName fuel s).2.names (pyGetName fuel s).1.asString).1,
          s.lineNum, s.colNum⟩,
         { (pyGetName fuel s).2 with
           names := (pyLookupOne (pyGetName fuel s).2.names
             (pyGetName fuel s).1.asString).2 }) := by
      simp only [getSymbol]
      rw [if_neg hni, hskip, hc]
      dsimp only
      rw [if_pos hal]
    rw [heq, hname]
  have hshape : nm = c :: nm.tail := by
    rw [hnm, hxs0, List.takeWhile_cons_of_pos halnumc]
    simp
  have hall : ∀ x ∈ nm, pyIsAlnumCh x = true := by
    intro x hx
    rw [hnm] at hx
    exact List.mem_takeWhile_imp hx
  have hspec := classifyName_spec c nm.tail hal (by rw [← hshape]; exact hall)
  rw [hsym]
  rw [hshape]
  constructor
  · rw [Option.some_inj]
    exact hspec.1
  · intro hkw
    have h2 := hspec.2 hkw
    refine ⟨?_, ?_, ?_⟩
    · rw [Option.some_inj]
      exact h2.1
    · rw [Option.some_inj]
      exact h2.2.1
    · rw [Option.some_inj]
      exact h2.2.2

/-- Witness for C5 on the file line `"Ab2 "`: the scanned name `Ab2` is
not a keyword, not caps-only, not caps-and-digits, hence `NAME_ALNUM`. -/
theorem getSymbol_name_classification_witness :
    (((getSymbol 9 (getNextChar (initScanner [['A', 'b', '2', ' ']] []))).1.symtype =
        some SymType.KEYWORD ↔
      (List.takeWhile pyIsAlnumCh
        (curRem (getNextChar (initScanner [['A', 'b', '2', ' ']] [])))).asString ∈ keywords)
    ∧ ((List.takeWhile pyIsAlnumCh
          (curRem (getNextChar (initScanner [['A', 'b', '2', ' ']] [])))).asString ∉ keywords →
        (((getSymbol 9 (getNextChar (initScanner [['A', 'b', '2', ' ']] []))).1.symtype =
            some SymType.NAME_CAPS ↔
          ∀ x ∈ List.takeWhile pyIsAlnumCh
              (curRem (getNextChar (initScanner [['A', 'b', '2', ' ']] []))),
            pyIsUpperCh x = true)
         ∧ ((getSymbol 9 (getNextChar (initScanner [['A', 'b', '2', ' ']] []))).1.symtype =
             some SymType.NAME_CAPSNUM ↔
           (∀ x ∈ List.takeWhile pyIsAlnumCh
               (curRem (getNextChar (initScanner [['A', 'b', '2', ' ']] []))),
             pyIsUpperCh x = true ∨ pyIsDigitCh x = true)
           ∧ ∃ x ∈ List.takeWhile pyIsAlnumCh
               (curRem (getNextChar (initScanner [['A', 'b', '2', ' ']] []))),
             pyIsDigitCh x = true)
         ∧ ((getSymbol 9 (getNextChar (initScanner [['A', 'b', '2', ' ']] []))).1.symtype =
             some SymType.NAME_ALNUM ↔
           ¬(∀ x ∈ List.takeWhile pyIsAlnumCh
               (curRem (getNextChar (initScanner [['A', 'b', '2', ' ']] []))),
             pyIsUpperCh x = true)
           ∧ ¬((∀ x ∈ List.takeWhile pyIsAlnumCh
                 (curRem (getNextChar (initScanner [['A', 'b', '2', ' ']] []))),
               pyIsUpperCh x = true ∨ pyIsDigitCh x = true)
               ∧ ∃ x ∈ List.takeWhile pyIsAlnumCh
                 (curRem (getNextChar (initScanner [['A', 'b', '2', ' ']] []))),
                 pyIsDigitCh x = true))))) :=
  getSymbol_name_classification 9 (getNextChar (initScanner [['A', 'b', '2', ' ']] []))
    (by
      constructor
      · decide
      · right; right; left
        refine ⟨by decide, by decide, by decide, by decide, by decide⟩)
    (by decide) 'A' (by decide) (by decide) (by decide) _ rfl

/-- The file `"#a\n#b\nX\n"`: two consecutive comment lines, then code.
The scanner's own test suite (`test_scanner.py`, case
`(['# comment line 1\n', '# comment line 2\n', 'DEVICE\n'], 2, 1)`)
expects skipping to reach line 2, column 1. -/
def commentBugFile : List (List Char) :=
  [['#', 'a', '\n'], ['#', 'b', '\n'], ['X', '\n']]

/-- C6 (failing run). On `commentBugFile`, `_skip_to_next_symbol` consumes
the first comment's terminating newline with a second blind
`_get_next_char`, landing on the `'#'` of line 1 with `isincomment`
already reset, so the loop exits inside the second comment: `get_symbol`
returns that `'#'` as a symbol with no assigned type, and the next call
scans the comment character `'b'` (line 1, column 2) as a `NAME_ALNUM`
symbol and interns it. This contradicts the claim (and the scanner's
docstring and tests) that characters inside comments are never returned. -/
theorem scanner_comment_not_skipped :
    (getSymbol 30 (initScanner commentBugFile [])).1 =
      ⟨none, none, 1, 1⟩
    ∧ (getSymbol 30 ((getSymbol 30 (initScanner commentBugFile [])).2)).1 =
        ⟨some SymType.NAME_ALNUM, some 0, 1, 2⟩
    ∧ (getSymbol 30 ((getSymbol 30 (initScanner commentBugFile [])).2)).2.names =
        ["b"] := by
  refine ⟨?_, ?_, ?_⟩ <;> decide

/-! ## `parse.py`: the `Parser` class

The parser is embedded over the finite token sequence the scanner
produces: by the EOF-stability theorem above, once the scanner is
exhausted every further `get_symbol` call returns the same EOF symbol, so
a scanner is equivalent to its list of non-EOF symbols together with the
position of its EOF symbol. `Parser.__init__` first allocates sixteen
error codes (`unique_error_codes` does not touch the name table); error
codes are modelled as an inductive type, which is faithful because
`unique_error_codes` hands out disjoint ranges, so codes of different
subsystems never collide. -/

/-- All error codes compared in `Parser.display_error`: the sixteen
syntactic codes of `parse.py` lines 51–66, and the spec-modelled semantic
codes of the absent `devices.py`, `network.py` and `monitors.py`. -/
inductive ErrCode
  | NO_END | NO_EOF | NO_DEVICE | NOT_VALID_DEVICE_TYPE | NO_NAME
  | NO_PARAMETER | NO_CLOSE_BRACKET | NO_PUNCTUATION | NO_CONNECT
  | NOT_VALID_OUTPUT | NO_CONNECTION_OP | NO_DOT | NOT_VALID_INPUT
  | NO_MONITOR | NO_SEMI_COLON | INPUTS_NOT_CONNECTED
  | DEVICE_PRESENT | NO_QUALIFIER | INVALID_QUALIFIER | QUALIFIER_PRESENT
  | BAD_DEVICE
  | DEVICE_ABSENT | INPUT_CONNECTED | INPUT_TO_INPUT | PORT_ABSENT
  | NOT_OUTPUT | MONITOR_PRESENT
deriving DecidableEq, Repr

/-- Observable events of a parser run: the boilerplate error report (with
the current symbol's line and column, or the empty-file message), the
per-code diagnostic (with the counter value after the increment), the
entry into a semantic build phase, and the three semantic build calls
(each recording the error counter at the moment of the call). -/
inductive Ev
  | bpReport (line col : Nat)
  | bpEmpty
  | errMsg (code : ErrCode) (cnt : Nat)
  | phaseEnter (cnt : Nat)
  | buildDev (dev kind param : Option Nat) (cnt : Nat)
  | buildConn (srcDev srcPort snkDev snkPort : Option Nat) (cnt : Nat)
  | buildMon (dev port : Option Nat) (cnt : Nat)
deriving DecidableEq, Repr

/-- A device table entry (spec §3: id, kind, parameter). -/
structure DevRec where
  devid : Option Nat
  kind : Option Nat
  param : Option Nat
deriving DecidableEq, Repr

/-- A connection (spec §3: source device/port to sink device/port). -/
structure ConnRec where
  srcDev : Option Nat
  srcPort : Option Nat
  snkDev : Option Nat
  snkPort : Option Nat
deriving DecidableEq, Repr

/-- The parser's mutable state: the remaining tokens, the position of the
scanner's EOF symbol, `_current_sym`, `_err_cnt`, the shared `Names`
table, the spec-modelled device/connection/monitor tables, whether the
file is empty (for `boilerplate_error`), and the event trace (most recent
event first). -/
structure PSt where
  toks : List Symbol
  eofPos : Nat × Nat
  cur : Symbol
  errCnt : Nat
  names : List String
  devices : List DevRec
  conns : List ConnRec
  monitors : List (Option Nat × Option Nat)
  fileEmpty : Bool
  trace : List Ev
deriving DecidableEq, Repr

/-- An entry of a stopping-symbol list: `Parser.stopping_symbols`
(`parse.py` lines 70–76) mixes name ids (Python ints) and symbol types
(enum members). -/
inductive StopEntry
  | sid (n : Nat)
  | stype (t : SymType)
deriving DecidableEq, Repr

/-- The exit condition of the recovery loop in `display_error`
(`parse.py` lines 574–576): the current symbol's type is in the list, or
its id is in the list. Python `None` is in neither (the lists hold only
ints and enum members). -/
def matchStop (stops : List StopEntry) (sym : Symbol) : Bool :=
  (match sym.symtype with
   | some t => stops.contains (StopEntry.stype t)
   | none => false)
  || (match sym.symid with
      | some n => stops.contains (StopEntry.sid n)
      | none => false)

/-- The four keyword ids interned by `Parser.__init__`. -/
structure KwIds where
  idEND : Nat
  idMONITOR : Nat
  idDEVICE : Nat
  idCONNECT : Nat
deriving DecidableEq, Repr

/-- The name-table interning performed while building
`Parser.stopping_symbols` (`parse.py` lines 70–76): the dict literal's
lookups run in source order, so `END`, `MONITOR`, `DEVICE`, `CONNECT` are
interned (in that order) by the first value list; all later lookups find
the strings already present and leave the table unchanged. -/
def parserInternNames (ns0 : List String) : KwIds × List String :=
  let r1 := pyLookupOne ns0 "END"
  let r2 := pyLookupOne r1.2 "MONITOR"
  let r3 := pyLookupOne r2.2 "DEVICE"
  let r4 := pyLookupOne r3.2 "CONNECT"
  (⟨r1.1.getD 0, r2.1.getD 0, r3.1.getD 0, r4.1.getD 0⟩, r4.2)

/-- `Parser.stopping_symbols` (`parse.py` lines 70–76). -/
def stoppingSymbols (k : KwIds) : String → List StopEntry
  | "DEVICE" => [StopEntry.sid k.idEND, StopEntry.sid k.idMONITOR,
      StopEntry.sid k.idDEVICE, StopEntry.sid k.idCONNECT, StopEntry.stype SymType.EOF]
  | "CONNECT" => [StopEntry.sid k.idEND, StopEntry.sid k.idMONITOR,
      StopEntry.stype SymType.EOF]
  | "MONITOR" => [StopEntry.sid k.idEND, StopEntry.stype SymType.EOF]
  | "END" => [StopEntry.stype SymType.EOF]
  | "EOF" => [StopEntry.stype SymType.EOF]
  | "BETWEEN" => [StopEntry.sid k.idEND, StopEntry.sid k.idMONITOR,
      StopEntry.sid k.idDEVICE, StopEntry.sid k.idCONNECT,
      StopEntry.stype SymType.SEMICOLON, StopEntry.stype SymType.EOF]
  | _ => []

/-- `Names.query` (`names.py` lines 56–66). -/
def pyQuery (names : List String) (s : String) : Option Nat :=
  if s ∈ names then some (names.indexOf s) else none

/-- The kind string of a device record, resolved through the name table. -/
def kindStrOf (names : List String) (d : DevRec) : String :=
  match d.kind with
  | some kk => (pyGetNameString names kk).getD ""
  | none => ""

/-- Modelled from the spec: `devices.py` is not in the sources.
`make_device(id, kind, parameter)` validation per spec §4.3: a present id
gives `DEVICE_PRESENT`; AND/NAND/OR/NOR require a fan-in 1–16; XOR and
DFF forbid a parameter; CLOCK requires a half-period ≥ 1; SWITCH requires
an initial level 0 or 1; unknown kinds give `BAD_DEVICE`. On success the
device is added to the table. `none` models `NO_ERROR`. -/
def make_device (st : PSt) (devid kind param : Option Nat) :
    Option ErrCode × PSt :=
  if st.devices.any (fun d => d.devid == devid) then
    (some ErrCode.DEVICE_PRESENT, st)
  else
    let kindStr := match kind with
      | some kk => (pyGetNameString st.names kk).getD ""
      | none => ""
    let res : Option ErrCode :=
      if kindStr = "AND" ∨ kindStr = "NAND" ∨ kindStr = "OR" ∨ kindStr = "NOR" then
        match param with
        | none => some ErrCode.NO_QUALIFIER
        | some n => if 1 ≤ n ∧ n ≤ 16 then none else some ErrCode.INVALID_QUALIFIER
      else if kindStr = "XOR" ∨ kindStr = "DFF" then
        match param with
        | none => none
        | some _ => some ErrCode.QUALIFIER_PRESENT
      else if kindStr = "CLOCK" then
        match param with
        | none => some ErrCode.NO_QUALIFIER
        | some n => if 1 ≤ n then none else some ErrCode.INVALID_QUALIFIER
      else if kindStr = "SWITCH" then
        match param with
        | none => some ErrCode.NO_QUALIFIER
        | some n => if n ≤ 1 then none else some ErrCode.INVALID_QUALIFIER
      else some ErrCode.BAD_DEVICE
    match res with
    | none => (none, { st with devices := st.devices ++ [⟨devid, kind, param⟩] })
    | some e => (some e, st)

/-- Modelled from the spec: the input port names of a device kind
(spec §3/§6): gates have `I1..In` with `n` the parameter, XOR has
`I1 I2`, DFF has `DATA CLK SET RESET`, CLOCK and SWITCH have none. -/
def inputPortStrs (kindStr : String) (param : Option Nat) : List String :=
  if kindStr = "AND" ∨ kindStr = "NAND" ∨ kindStr = "OR" ∨ kindStr = "NOR" then
    (List.range (param.getD 0)).map (fun i => "I" ++ toString (i + 1))
  else if kindStr = "XOR" then ["I1", "I2"]
  else if kindStr = "DFF" then ["DATA", "CLK", "SET", "RESET"]
  else []

/-- Modelled from the spec: whether a port id names an input of the given
device, resolved through the name table. -/
def isInputPort (names : List String) (kindStr : String) (param : Option Nat)
    (port : Option Nat) : Bool :=
  match port with
  | some p => ((inputPortStrs kindStr param).map (pyQuery names)).contains (some p)
  | none => false

/-- Modelled from the spec: whether a port id names an output of the given
device kind (spec §3): DFF has `Q` and `QBAR`; every other kind has a
single anonymous output (`None`). -/
def validOutputPort (names : List String) (kindStr : String)
    (port : Option Nat) : Bool :=
  if kindStr = "DFF" then
    match port with
    | some p => (pyQuery names "Q" == some p) || (pyQuery names "QBAR" == some p)
    | none => false
  else port == none

/-- Modelled from the spec: `network.py` is not in the sources.
`make_connection` validation per spec §4.4: both devices must exist
(`DEVICE_ABSENT`), source and sink must not both be inputs
(`INPUT_TO_INPUT`), the source port must be an output and the sink port
an input (`PORT_ABSENT`), and the sink input must not already be
connected (`INPUT_CONNECTED`). On success the connection is added. -/
def make_connection (st : PSt) (od op snkd snkp : Option Nat) :
    Option ErrCode × PSt :=
  match st.devices.find? (fun d => d.devid == od),
        st.devices.find? (fun d => d.devid == snkd) with
  | some dsrc, some dsnk =>
    let srcKind := kindStrOf st.names dsrc
    let snkKind := kindStrOf st.names dsnk
    let srcIsInput := isInputPort st.names srcKind dsrc.param op
    let snkIsInput := isInputPort st.names snkKind dsnk.param snkp
    if srcIsInput && snkIsInput then (some ErrCode.INPUT_TO_INPUT, st)
    else if !(validOutputPort st.names srcKind op) || !snkIsInput then
      (some ErrCode.PORT_ABSENT, st)
    else if st.conns.any (fun c => c.snkDev == snkd && c.snkPort == snkp) then
      (some ErrCode.INPUT_CONNECTED, st)
    else (none, { st with conns := st.conns ++ [⟨od, op, snkd, snkp⟩] })
  | _, _ => (some ErrCode.DEVICE_ABSENT, st)

/-- Modelled from the spec: `network.check_network()` per spec §4.4:
every input of every device has exactly one incoming connection. -/
def check_network (st : PSt) : Bool :=
  st.devices.all (fun d =>
    (inputPortStrs (kindStrOf st.names d) d.param).all (fun pstr =>
      (st.conns.filter (fun c =>
        c.snkDev == d.devid && c.snkPort == pyQuery st.names pstr)).length == 1))

/-- Modelled from the spec: `monitors.py` is not in the sources.
`make_monitor` validation per spec §4.5: the port must be an output of an
existing device (`NOT_OUTPUT`) and not already monitored
(`MONITOR_PRESENT`). On success the monitor is added. -/
def make_monitor (st : PSt) (dev port : Option Nat) : Option ErrCode × PSt :=
  match st.devices.find? (fun d => d.devid == dev) with
  | none => (some ErrCode.NOT_OUTPUT, st)
  | some d =>
    if !(validOutputPort st.names (kindStrOf st.names d) port) then
      (some ErrCode.NOT_OUTPUT, st)
    else if st.monitors.contains (dev, port) then
      (some ErrCode.MONITOR_PRESENT, st)
    else (none, { st with monitors := st.monitors ++ [(dev, port)] })

/-- The result of a parser computation: `Except.error (code, st)` models
`exit(code)` (the final state records the trace up to the exit), and
`Except.ok (v, st)` a normal return. -/
def PRes (α : Type) : Type := Except (Nat × PSt) (α × PSt)

/-- The state carried by a parser result, whether it exited or returned. -/
def resSt : PRes α → PSt
  | Except.error (_, st) => st
  | Except.ok (_, st) => st

/-- The four fatal keyword errors: `display_error` calls `exit(1)` for
them (`parse.py` lines 502–513). -/
def pFatal : ErrCode → Bool
  | ErrCode.NO_DEVICE => true
  | ErrCode.NO_END => true
  | ErrCode.NO_MONITOR => true
  | ErrCode.NO_CONNECT => true
  | _ => false

/-- `self._current_sym = self._scanner.get_symbol()`: pop the next token,
or the scanner's eternal EOF symbol once the list is exhausted. -/
def nextTok (st : PSt) : PSt :=
  match st.toks with
  | t :: ts => { st with cur := t, toks := ts }
  | [] => { st with cur := ⟨some SymType.EOF, none, st.eofPos.1, st.eofPos.2⟩ }

/-- The recovery loop of `display_error` (`parse.py` lines 574–576):
fast-forward until the current symbol's type or id is in the stopping
list. When the token list is exhausted the loop is fed the EOF symbol
forever; the model stops there (the real loop would spin forever if the
EOF type were missing from the list, and every call site includes it). -/
def skipStopsGo (stops : List StopEntry) : Nat → PSt → PSt
  | 0, st => st
  | n + 1, st =>
    if matchStop stops st.cur then st
    else match st.toks with
      | [] => { st with cur := ⟨some SymType.EOF, none, st.eofPos.1, st.eofPos.2⟩ }
      | t :: ts => skipStopsGo stops n { st with cur := t, toks := ts }

/-- The loop above run with fuel one greater than the number of
remaining tokens; since every iteration pops one token until the list is
empty and the EOF case stops, this fuel always suffices. -/
def skipStops (stops : List StopEntry) (st : PSt) : PSt :=
  skipStopsGo stops (st.toks.length + 1) st

/-- `Parser.display_error` (`parse.py` lines 487–576): increment the
error counter, print the boilerplate (file/line/column report, or the
empty-file message), print the per-code diagnostic, `exit(1)` for the
four fatal keyword errors, and otherwise fast-forward to a stopping
symbol. -/
def display_error (code : ErrCode) (stops : List StopEntry) (st : PSt) :
    PRes Unit :=
  let st1 : PSt := { st with errCnt := st.errCnt + 1 }
  let st2 : PSt := { st1 with trace :=
    (if st1.fileEmpty then Ev.bpEmpty
     else Ev.bpReport st1.cur.linenum st1.cur.colnum) :: st1.trace }
  let st3 : PSt := { st2 with trace := Ev.errMsg code st2.errCnt :: st2.trace }
  if pFatal code then Except.error (1, st3)
  else Except.ok ((), skipStops stops st3)

/-- `Parser._parse_device_name` (`parse.py` lines 256–277). -/
def parse_device_name (k : KwIds) (getsym : Bool) (st0 : PSt) :
    PRes (Bool × Option Nat) :=
  let st := if getsym then nextTok st0 else st0
  if st.cur.symtype = some SymType.NAME_CAPS
      ∨ st.cur.symtype = some SymType.NAME_CAPSNUM
      ∨ st.cur.symtype = some SymType.NAME_ALNUM then
    Except.ok ((true, st.cur.symid), st)
  else
    match display_error ErrCode.NO_NAME (stoppingSymbols k "BETWEEN") st with
    | Except.error e => Except.error e
    | Except.ok (_, st2) => Except.ok ((false, none), st2)

/-- `Parser._parse_device_type` (`parse.py` lines 193–209). -/
def parse_device_type (k : KwIds) (st : PSt) : PRes (Bool × Option Nat) :=
  if st.cur.symtype ≠ some SymType.NAME_CAPS then
    match display_error ErrCode.NOT_VALID_DEVICE_TYPE
        (stoppingSymbols k "BETWEEN") st with
    | Except.error e => Except.error e
    | Except.ok (_, st2) => Except.ok ((false, none), st2)
  else Except.ok ((true, st.cur.symid), st)

/-- `Parser._parse_device` (`parse.py` lines 211–254): name, then an
optional parenthesised parameter. Returns the `{device_id: parameter}`
entry, or `none` for the error paths that return `[False, None]`. -/
def parse_device (k : KwIds) (st0 : PSt) :
    PRes (Bool × Option (Option Nat × Option Nat)) :=
  match parse_device_name k true st0 with
  | Except.error e => Except.error e
  | Except.ok ((nstat, devid), st1) =>
    let st := nextTok st1
    if st.cur.symtype = some SymType.OPENPAREN then
      let st := nextTok st
      if st.cur.symtype ≠ some SymType.NUMBER then
        match display_error ErrCode.NO_PARAMETER
            (stoppingSymbols k "BETWEEN") st with
        | Except.error e => Except.error e
        | Except.ok (_, st2) => Except.ok ((false, none), st2)
      else
        let param := st.cur.symid
        let st := nextTok st
        if st.cur.symtype ≠ some SymType.CLOSEPAREN then
          match display_error ErrCode.NO_CLOSE_BRACKET
              (stoppingSymbols k "BETWEEN") st with
          | Except.error e => Except.error e
          | Except.ok (_, st2) => Except.ok ((false, none), st2)
        else
          let st := nextTok st
          Except.ok ((nstat, some (devid, param)), st)
    else
      Except.ok ((nstat, some (devid, none)), st)

/-- `dict.update` with a single-entry dict: replace the value of an
existing key, otherwise append (insertion order preserved). -/
def dictUpdate (l : List (Option Nat × Option Nat))
    (kv : Option Nat × Option Nat) : List (Option Nat × Option Nat) :=
  if l.any (fun p => p.1 == kv.1) then
    l.map (fun p => if p.1 == kv.1 then (p.1, kv.2) else p)
  else l ++ [kv]

/-- The comma loop of `Parser._parse_device_def` (`parse.py` lines
177–182). -/
def device_def_loop (k : KwIds) :
    Nat → Bool → List (Option Nat × Option Nat) → PSt →
      PRes (Bool × List (Option Nat × Option Nat))
  | 0, ret, named, st => Except.ok ((ret, named), st)
  | fuel + 1, ret, named, st =>
    if st.cur.symtype = some SymType.COMMA then
      match parse_device k st with
      | Except.error e => Except.error e
      | Except.ok ((dstat, dev), st) =>
        let named := if dstat then
            (match dev with
             | some kv => dictUpdate named kv
             | none => named)
          else named
        device_def_loop k fuel (dstat && ret) named st
    else Except.ok ((ret, named), st)

/-- `Parser._parse_device_def` (`parse.py` lines 155–191). -/
def parse_device_def (k : KwIds) (fuel : Nat) (st : PSt) :
    PRes (Bool × Option Nat × Option (List (Option Nat × Option Nat))) :=
  match parse_device_type k st with
  | Except.error e => Except.error e
  | Except.ok ((kstat, kind), st) =>
    match parse_device k st with
    | Except.error e => Except.error e
    | Except.ok ((dstat, dev), st) =>
      let named := if dstat then
          (match dev with
           | some kv => dictUpdate [] kv
           | none => [])
        else []
      match device_def_loop k fuel (dstat && kstat) named st with
      | Except.error e => Except.error e
      | Except.ok ((ret, named), st) =>
        if st.cur.symtype ≠ some SymType.COMMA
            ∧ st.cur.symtype ≠ some SymType.SEMICOLON then
          match display_error ErrCode.NO_PUNCTUATION
              (stoppingSymbols k "BETWEEN") st with
          | Except.error e => Except.error e
          | Except.ok (_, st2) => Except.ok ((false, none, none), st2)
        else Except.ok ((ret, kind, some named), st)

/-- The `make_device` loop of `Parser._parse_device_list` (`parse.py`
lines 139–147), entered only under the guard of line 138. Each iteration
records a `buildDev` event carrying the error counter at the moment of
the call. -/
def buildDevices (k : KwIds) :
    List (Option Nat × Option Nat) → Option Nat → Bool → PSt → PRes Bool
  | [], _, ret, st => Except.ok (ret, st)
  | (dev, param) :: rest, kind, ret, st =>
    let st : PSt := { st with trace := Ev.buildDev dev kind param st.errCnt :: st.trace }
    match make_device st dev kind param with
    | (none, st) => buildDevices k rest kind ret st
    | (some e, st) =>
      match display_error e (stoppingSymbols k "BETWEEN") st with
      | Except.error ex => Except.error ex
      | Except.ok (_, st) => buildDevices k rest kind false st

/-- Entry into the device build phase: records the error counter at
entry (it is zero by the guard at the call site). -/
def buildDevicesPhase (k : KwIds) (devs : List (Option Nat × Option Nat))
    (kind : Option Nat) (ret : Bool) (st : PSt) : PRes Bool :=
  let st : PSt := { st with trace := Ev.phaseEnter st.errCnt :: st.trace }
  buildDevices k devs kind ret st

/-- The `while` loop of `Parser._parse_device_list` (`parse.py` lines
135–153), including the final EOF check. -/
def device_list_loop (k : KwIds) : Nat → Bool → PSt → PRes Bool
  | 0, ret, st => Except.ok (ret, st)
  | fuel + 1, ret, st =>
    if st.cur.symtype ≠ some SymType.KEYWORD
        ∧ st.cur.symtype ≠ some SymType.EOF then
      match parse_device_def k fuel st with
      | Except.error e => Except.error e
      | Except.ok ((status, kind, devs), st) =>
        let ret := status && ret
        match (if ret && (st.errCnt == 0) then
                 buildDevicesPhase k (devs.getD []) kind ret st
               else Except.ok (ret, st)) with
        | Except.error e => Except.error e
        | Except.ok (ret, st) =>
          let st := nextTok st
          device_list_loop k fuel ret st
    else
      if st.cur.symtype = some SymType.EOF then Except.ok (false, st)
      else Except.ok (ret, st)

/-- `Parser._parse_device_list` (`parse.py` lines 113–153). -/
def parse_device_list (k : KwIds) (fuel : Nat) (st0 : PSt) : PRes Bool :=
  let st := nextTok st0
  match (if st.cur.symtype ≠ some SymType.KEYWORD
             ∨ st.cur.symid ≠ some k.idDEVICE then
           display_error ErrCode.NO_DEVICE (stoppingSymbols k "DEVICE") st
         else Except.ok ((), st)) with
  | Except.error e => Except.error e
  | Except.ok (_, st) =>
    let st := nextTok st
    device_list_loop k fuel true st

/-- `Parser._parse_output` (`parse.py` lines 368–402). -/
def parse_output (k : KwIds) (st0 : PSt) :
    PRes (Bool × Option Nat × Option Nat) :=
  match parse_device_name k false st0 with
  | Except.error e => Except.error e
  | Except.ok ((nstat, od), st1) =>
    let st := nextTok st1
    if st.cur.symtype = some SymType.DOT then
      let st := nextTok st
      if st.cur.symtype ≠ some SymType.NAME_CAPS then
        match display_error ErrCode.NOT_VALID_OUTPUT
            (stoppingSymbols k "BETWEEN") st with
        | Except.error e => Except.error e
        | Except.ok (_, st2) => Except.ok ((false, none, none), st2)
      else
        let op := st.cur.symid
        let st := nextTok st
        Except.ok ((nstat, od, op), st)
    else Except.ok ((nstat, od, none), st)

/-- `Parser._parse_input` (`parse.py` lines 404–434). -/
def parse_input (k : KwIds) (st0 : PSt) :
    PRes (Bool × Option Nat × Option Nat) :=
  match parse_device_name k true st0 with
  | Except.error e => Except.error e
  | Except.ok ((nstat, idd), st1) =>
    let st := nextTok st1
    if st.cur.symtype ≠ some SymType.DOT then
      match display_error ErrCode.NO_DOT (stoppingSymbols k "BETWEEN") st with
      | Except.error e => Except.error e
      | Except.ok (_, st2) => Except.ok ((false, none, none), st2)
    else
      let st := nextTok st
      if st.cur.symtype ≠ some SymType.NAME_CAPSNUM
          ∧ st.cur.symtype ≠ some SymType.NAME_CAPS then
        match display_error ErrCode.NOT_VALID_INPUT
            (stoppingSymbols k "BETWEEN") st with
        | Except.error e => Except.error e
        | Except.ok (_, st2) => Except.ok ((false, none, none), st2)
      else Except.ok ((nstat, idd, st.cur.symid), st)

/-- The comma loop of `Parser._parse_connection` (`parse.py` lines
353–358). -/
def connection_input_loop (k : KwIds) :
    Nat → Bool → List (Option Nat × Option Nat) → PSt →
      PRes (Bool × List (Option Nat × Option Nat))
  | 0, ret, inputs, st => Except.ok ((ret, inputs), st)
  | fuel + 1, ret, inputs, st =>
    if st.cur.symtype = some SymType.COMMA then
      match parse_input k st with
      | Except.error e => Except.error e
      | Except.ok ((istat, idd, ipp), st) =>
        let inputs := if istat then inputs ++ [(idd, ipp)] else inputs
        let st := nextTok st
        connection_input_loop k fuel (istat && ret) inputs st
    else Except.ok ((ret, inputs), st)

/-- `Parser._parse_connection` (`parse.py` lines 322–366). -/
def parse_connection (k : KwIds) (fuel : Nat) (st : PSt) :
    PRes (Bool × Option (Option Nat × Option Nat) ×
      List (Option Nat × Option Nat)) :=
  match parse_output k st with
  | Except.error e => Except.error e
  | Except.ok ((ostat, od, op), st) =>
    if st.cur.symtype ≠ some SymType.CONNECTION_OP then
      match display_error ErrCode.NO_CONNECTION_OP
          (stoppingSymbols k "BETWEEN") st with
      | Except.error e => Except.error e
      | Except.ok (_, st2) => Except.ok ((false, none, []), st2)
    else
      match parse_input k st with
      | Except.error e => Except.error e
      | Except.ok ((istat, idd, ipp), st) =>
        let inputs := if istat then [(idd, ipp)] else []
        let st := nextTok st
        match connection_input_loop k fuel (istat && ostat) inputs st with
        | Except.error e => Except.error e
        | Except.ok ((ret, inputs), st) =>
          if st.cur.symtype ≠ some SymType.SEMICOLON then
            match display_error ErrCode.NO_PUNCTUATION
                (stoppingSymbols k "BETWEEN") st with
            | Except.error e => Except.error e
            | Except.ok (_, st2) => Except.ok ((false, none, []), st2)
          else Except.ok ((ret, some (od, op), inputs), st)

/-- The `make_connection` loop of `Parser._parse_connect_list`
(`parse.py` lines 307–314), entered only under the guard of line 306. -/
def buildConns (k : KwIds) :
    List (Option Nat × Option Nat) → Option Nat → Option Nat → Bool → PSt →
      PRes Bool
  | [], _, _, ret, st => Except.ok (ret, st)
  | (idd, ipp) :: rest, od, op, ret, st =>
    let st : PSt := { st with trace := Ev.buildConn od op idd ipp st.errCnt :: st.trace }
    match make_connection st od op idd ipp with
    | (none, st) => buildConns k rest od op ret st
    | (some e, st) =>
      match display_error e (stoppingSymbols k "BETWEEN") st with
      | Except.error ex => Except.error ex
      | Except.ok (_, st) => buildConns k rest od op false st

/-- Entry into the connection build phase. -/
def buildConnsPhase (k : KwIds) (out : Option Nat × Option Nat)
    (inputs : List (Option Nat × Option Nat)) (ret : Bool) (st : PSt) :
    PRes Bool :=
  let st : PSt := { st with trace := Ev.phaseEnter st.errCnt :: st.trace }
  buildConns k inputs out.1 out.2 ret st

/-- The `while` loop of `Parser._parse_connect_list` (`parse.py` lines
301–320), including the final EOF check. -/
def connect_list_loop (k : KwIds) : Nat → Bool → PSt → PRes Bool
  | 0, ret, st => Except.ok (ret, st)
  | fuel + 1, ret, st =>
    if st.cur.symtype ≠ some SymType.KEYWORD
        ∧ st.cur.symtype ≠ some SymType.EOF then
      match parse_connection k fuel st with
      | Except.error e => Except.error e
      | Except.ok ((status, out, inputs), st) =>
        let ret := status && ret
        match (if ret && (st.errCnt == 0) then
                 buildConnsPhase k (out.getD (none, none)) inputs ret st
               else Except.ok (ret, st)) with
        | Except.error e => Except.error e
        | Except.ok (ret, st) =>
          let st := nextTok st
          connect_list_loop k fuel ret st
    else
      if st.cur.symtype = some SymType.EOF then Except.ok (false, st)
      else Except.ok (ret, st)

/-- `Parser._parse_connect_list` (`parse.py` lines 279–320). -/
def parse_connect_list (k : KwIds) (fuel : Nat) (st : PSt) : PRes Bool :=
  if st.cur.symtype ≠ some SymType.KEYWORD
      ∨ st.cur.symid ≠ some k.idCONNECT then
    match display_error ErrCode.NO_CONNECT (stoppingSymbols k "CONNECT") st with
    | Except.error e => Except.error e
    | Except.ok (_, st2) => Except.ok (false, st2)
  else
    let st := nextTok st
    connect_list_loop k fuel true st

/-- One guarded `make_monitor` call of `Parser._parse_monitor_list`
(`parse.py` lines 461–468 and 474–480). -/
def buildMonPhase (k : KwIds) (od op : Option Nat) (ret : Bool) (st : PSt) :
    PRes Bool :=
  let st : PSt := { st with trace := Ev.phaseEnter st.errCnt :: st.trace }
  let st : PSt := { st with trace := Ev.buildMon od op st.errCnt :: st.trace }
  match make_monitor st od op with
  | (none, st) => Except.ok (ret, st)
  | (some e, st) =>
    match display_error e (stoppingSymbols k "BETWEEN") st with
    | Except.error ex => Except.error ex
    | Except.ok (_, st) => Except.ok (false, st)

/-- The comma loop of `Parser._parse_monitor_list` (`parse.py` lines
470–485), including the final EOF check. -/
def monitor_list_loop (k : KwIds) : Nat → Bool → PSt → PRes Bool
  | 0, ret, st => Except.ok (ret, st)
  | fuel + 1, ret, st =>
    if st.cur.symtype = some SymType.COMMA then
      let st := nextTok st
      match parse_output k st with
      | Except.error e => Except.error e
      | Except.ok ((status, od, op), st) =>
        let ret := status && ret
        match (if ret && (st.errCnt == 0) then buildMonPhase k od op ret st
               else Except.ok (ret, st)) with
        | Except.error e => Except.error e
        | Except.ok (ret, st) => monitor_list_loop k fuel ret st
    else
      if st.cur.symtype = some SymType.EOF then Except.ok (false, st)
      else Except.ok (ret, st)

/-- `Parser._parse_monitor_list` (`parse.py` lines 436–485). -/
def parse_monitor_list (k : KwIds) (fuel : Nat) (st : PSt) : PRes Bool :=
  if st.cur.symtype ≠ some SymType.KEYWORD
      ∨ st.cur.symid ≠ some k.idMONITOR then
    match display_error ErrCode.NO_MONITOR (stoppingSymbols k "MONITOR") st with
    | Except.error e => Except.error e
    | Except.ok (_, st2) => Except.ok (false, st2)
  else
    let st := nextTok st
    match parse_output k st with
    | Except.error e => Except.error e
    | Except.ok ((status, od, op), st) =>
      match (if status && (st.errCnt == 0) then buildMonPhase k od op status st
             else Except.ok (status, st)) with
      | Except.error e => Except.error e
      | Except.ok (ret, st) => monitor_list_loop k fuel ret st

/-- `Parser.parse_network` (`parse.py` lines 78–111). -/
def parse_network (k : KwIds) (fuel : Nat) (st : PSt) : PRes Bool :=
  match parse_device_list k fuel st with
  | Except.error e => Except.error e
  | Except.ok (r1, st) =>
    match parse_connect_list k fuel st with
    | Except.error e => Except.error e
    | Except.ok (r2, st) =>
      match parse_monitor_list k fuel st with
      | Except.error e => Except.error e
      | Except.ok (r3, st) =>
        let ret := r3 && (r2 && (true && r1))
        if st.cur.symtype ≠ some SymType.KEYWORD
            ∨ st.cur.symid ≠ some k.idEND then
          match display_error ErrCode.NO_END (stoppingSymbols k "END") st with
          | Except.error e => Except.error e
          | Except.ok (_, st2) => Except.ok (false, st2)
        else
          let st := nextTok st
          if st.cur.symtype ≠ some SymType.EOF then
            match display_error ErrCode.NO_EOF (stoppingSymbols k "END") st with
            | Except.error e => Except.error e
            | Except.ok (_, st2) => Except.ok (false, st2)
          else
            let netOk := check_network st
            if !netOk then
              match display_error ErrCode.INPUTS_NOT_CONNECTED
                  (stoppingSymbols k "EOF") st with
              | Except.error e => Except.error e
              | Except.ok (_, st2) => Except.ok (netOk && ret, st2)
            else Except.ok (netOk && ret, st)

/-- Scan a whole file into its token list, the EOF position, and the
final scanner state (the fuel bounds both the number of symbols and the
inner loops of each `get_symbol` call). -/
def scanAll : Nat → ScSt → List Symbol × (Nat × Nat) × ScSt
  | 0, s => ([], (s.lineNum, s.colNum), s)
  | n + 1, s =>
    let r := getSymbol (n + 1) s
    if r.1.symtype = some SymType.EOF then ([], (r.1.linenum, r.1.colnum), r.2)
    else
      let rest := scanAll n r.2
      (r.1 :: rest.1, rest.2.1, rest.2.2)

/-- The `logsim.py` pipeline on a file: `Names()` is fresh, the parser's
`__init__` interns the four keywords before any token is read, scanning
then extends the same table (precomputing the whole token list is
faithful because `lookup` is deterministic and the parser's own lookups
only query strings that are already present). -/
def runParserOnFile (fuel : Nat) (file : List (List Char)) :
    PRes Bool :=
  let ki := parserInternNames []
  let sc := scanAll fuel (initScanner file ki.2)
  let st : PSt := { toks := sc.1, eofPos := sc.2.1,
                    cur := ⟨none, none, 0, 0⟩, errCnt := 0,
                    names := sc.2.2.names, devices := [], conns := [],
                    monitors := [], fileEmpty := file.isEmpty, trace := [] }
  parse_network ki.1 fuel st

/-! ## Parser: trace predicates and basic lemmas -/

/-- An event is compatible with the phase invariant when it is not a
phase entry, or is a phase entry at error count zero. -/
def phaseOk : Ev → Bool
  | Ev.phaseEnter c => c == 0
  | _ => true

/-- Every semantic build phase in the trace was entered with the error
counter at zero. -/
def goodPhases (tr : List Ev) : Bool := tr.all phaseOk

/-- An event is compatible with the literal reading of the build-call
claim when it is not a build call, or is a build call issued at error
count zero. -/
def buildCntZero : Ev → Bool
  | Ev.buildDev _ _ _ c => c == 0
  | Ev.buildConn _ _ _ _ c => c == 0
  | Ev.buildMon _ _ c => c == 0
  | _ => true

/-- Every semantic build call in the trace was issued with the error
counter at zero. -/
def buildsOnlyAtZero (tr : List Ev) : Bool := tr.all buildCntZero

/-- Whether an event is one of the three semantic build calls. -/
def isBuildEv : Ev → Bool
  | Ev.buildDev _ _ _ _ => true
  | Ev.buildConn _ _ _ _ _ => true
  | Ev.buildMon _ _ _ => true
  | _ => false

theorem nextTok_fields (st : PSt) :
    (nextTok st).trace = st.trace ∧ (nextTok st).errCnt = st.errCnt
    ∧ (nextTok st).devices = st.devices
    ∧ (nextTok st).fileEmpty = st.fileEmpty := by
  unfold nextTok
  split <;> exact ⟨rfl, rfl, rfl, rfl⟩

theorem skipStopsGo_fields (stops : List StopEntry) :
    ∀ (n : Nat) (st : PSt),
      (skipStopsGo stops n st).trace = st.trace
      ∧ (skipStopsGo stops n st).errCnt = st.errCnt
      ∧ (skipStopsGo stops n st).devices = st.devices
      ∧ (skipStopsGo stops n st).names = st.names
      ∧ (skipStopsGo stops n st).conns = st.conns
      ∧ (skipStopsGo stops n st).monitors = st.monitors
      ∧ (skipStopsGo stops n st).fileEmpty = st.fileEmpty := by
  intro n
  induction n with
  | zero =>
    intro st
    exact ⟨rfl, rfl, rfl, rfl, rfl, rfl, rfl⟩
  | succ m ih =>
    intro st
    simp only [skipStopsGo]
    split
    · exact ⟨rfl, rfl, rfl, rfl, rfl, rfl, rfl⟩
    · split
      · exact ⟨rfl, rfl, rfl, rfl, rfl, rfl, rfl⟩
      · exact ih _

theorem skipStops_fields (stops : List StopEntry) :
    ∀ (l : List Symbol) (st : PSt), st.toks = l →
      (skipStops stops st).trace = st.trace
      ∧ (skipStops stops st).errCnt = st.errCnt
      ∧ (skipStops stops st).devices = st.devices
      ∧ (skipStops stops st).names = st.names
      ∧ (skipStops stops st).conns = st.conns
      ∧ (skipStops stops st).monitors = st.monitors
      ∧ (skipStops stops st).fileEmpty = st.fileEmpty := by
  intro l st _
  exact skipStopsGo_fields stops _ st

theorem skipStopsGo_match (stops : List StopEntry)
    (hEOF : StopEntry.stype SymType.EOF ∈ stops) :
    ∀ (n : Nat) (st : PSt), st.toks.length < n →
      matchStop stops (skipStopsGo stops n st).cur = true := by
  intro n
  induction n with
  | zero =>
    intro st h
    exact absurd h (Nat.not_lt_zero _)
  | succ m ih =>
    intro st hlen
    simp only [skipStopsGo]
    split
    next hm => exact hm
    · split
      next heq =>
        show matchStop stops
          (⟨some SymType.EOF, none, st.eofPos.1, st.eofPos.2⟩ : Symbol) = true
        simp only [matchStop, Bool.or_eq_true]
        left
        exact List.elem_iff.2 hEOF
      next t ts heq =>
        apply ih
        show ts.length < m
        have hl2 : st.toks.length = ts.length + 1 := by
          rw [heq]
          rfl
        omega

theorem skipStops_match (stops : List StopEntry)
    (hEOF : StopEntry.stype SymType.EOF ∈ stops) :
    ∀ (l : List Symbol) (st : PSt), st.toks = l →
      matchStop stops (skipStops stops st).cur = true := by
  intro l st _
  exact skipStopsGo_match stops hEOF _ st (Nat.lt_succ_self _)

theorem display_error_fatal (code : ErrCode) (stops : List StopEntry)
    (st : PSt) (h : pFatal code = true) :
    display_error code stops st =
      Except.error (1,
        { st with
            errCnt := st.errCnt + 1,
            trace := Ev.errMsg code (st.errCnt + 1) ::
              (if st.fileEmpty then Ev.bpEmpty
               else Ev.bpReport st.cur.linenum st.cur.colnum) :: st.trace }) := by
  unfold display_error
  rw [if_pos h]

theorem display_error_ok (code : ErrCode) (stops : List StopEntry)
    (st : PSt) (h : pFatal code = false) :
    display_error code stops st = Except.ok ((), skipStops stops
      { st with
          errCnt := st.errCnt + 1,
          trace := Ev.errMsg code (st.errCnt + 1) ::
            (if st.fileEmpty then Ev.bpEmpty
             else Ev.bpReport st.cur.linenum st.cur.colnum) :: st.trace }) := by
  unfold display_error
  rw [if_neg (by simp [h])]

theorem goodPhases_cons_errMsg (code : ErrCode) (n : Nat) (tr : List Ev) :
    goodPhases (Ev.errMsg code n :: tr) = goodPhases tr := by
  simp [goodPhases, phaseOk]

theorem goodPhases_cons_bp (st : PSt) (tr : List Ev) :
    goodPhases ((if st.fileEmpty then Ev.bpEmpty
      else Ev.bpReport st.cur.linenum st.cur.colnum) :: tr) = goodPhases tr := by
  split <;> simp [goodPhases, phaseOk]

theorem display_error_GP (code : ErrCode) (stops : List StopEntry) (st : PSt)
    (h : goodPhases st.trace = true) :
    goodPhases (resSt (display_error code stops st)).trace = true := by
  by_cases hf : pFatal code = true
  · rw [display_error_fatal code stops st hf]
    show goodPhases (Ev.errMsg code (st.errCnt + 1) ::
      (if st.fileEmpty then Ev.bpEmpty
       else Ev.bpReport st.cur.linenum st.cur.colnum) :: st.trace) = true
    rw [goodPhases_cons_errMsg, goodPhases_cons_bp]
    exact h
  · have hf2 : pFatal code = false := by
      revert hf
      cases pFatal code <;> simp
    rw [display_error_ok code stops st hf2]
    show goodPhases (skipStops stops _).trace = true
    rw [(skipStops_fields stops _ _ rfl).1]
    show goodPhases (Ev.errMsg code (st.errCnt + 1) ::
      (if st.fileEmpty then Ev.bpEmpty
       else Ev.bpReport st.cur.linenum st.cur.colnum) :: st.trace) = true
    rw [goodPhases_cons_errMsg, goodPhases_cons_bp]
    exact h

theorem display_error_errCnt (code : ErrCode) (stops : List StopEntry)
    (st : PSt) :
    (resSt (display_error code stops st)).errCnt = st.errCnt + 1 := by
  by_cases hf : pFatal code = true
  · rw [display_error_fatal code stops st hf]
    rfl
  · have hf2 : pFatal code = false := by
      revert hf
      cases pFatal code <;> simp
    rw [display_error_ok code stops st hf2]
    show (skipStops stops _).errCnt = st.errCnt + 1
    rw [(skipStops_fields stops _ _ rfl).2.1]

theorem goodPhases_res_error {α : Type} {r : PRes α} {e : Nat × PSt}
    (he : r = Except.error e)
    (h : goodPhases (resSt r).trace = true) :
    goodPhases e.2.trace = true := by
  rw [he] at h
  exact h

theorem goodPhases_res_ok {α : Type} {r : PRes α} {v : α} {st2 : PSt}
    (he : r = Except.ok (v, st2))
    (h : goodPhases (resSt r).trace = true) :
    goodPhases st2.trace = true := by
  rw [he] at h
  exact h

theorem make_device_fields (st : PSt) (a b c : Option Nat) :
    (make_device st a b c).2.trace = st.trace
    ∧ (make_device st a b c).2.errCnt = st.errCnt := by
  unfold make_device
  split
  · exact ⟨rfl, rfl⟩
  · dsimp only
    split <;> exact ⟨rfl, rfl⟩

theorem make_connection_fields (st : PSt) (a b c d : Option Nat) :
    (make_connection st a b c d).2.trace = st.trace
    ∧ (make_connection st a b c d).2.errCnt = st.errCnt := by
  unfold make_connection
  split
  · dsimp only
    split
    · exact ⟨rfl, rfl⟩
    · split
      · exact ⟨rfl, rfl⟩
      · split <;> exact ⟨rfl, rfl⟩
  · exact ⟨rfl, rfl⟩

theorem make_monitor_fields (st : PSt) (a b : Option Nat) :
    (make_monitor st a b).2.trace = st.trace
    ∧ (make_monitor st a b).2.errCnt = st.errCnt := by
  unfold make_monitor
  split
  · exact ⟨rfl, rfl⟩
  · split
    · exact ⟨rfl, rfl⟩
    · split <;> exact ⟨rfl, rfl⟩

theorem goodPhases_cons_buildDev (a b c : Option Nat) (n : Nat) (tr : List Ev) :
    goodPhases (Ev.buildDev a b c n :: tr) = goodPhases tr := by
  simp [goodPhases, phaseOk]

theorem goodPhases_cons_buildConn (a b c d : Option Nat) (n : Nat)
    (tr : List Ev) :
    goodPhases (Ev.buildConn a b c d n :: tr) = goodPhases tr := by
  simp [goodPhases, phaseOk]

theorem goodPhases_cons_buildMon (a b : Option Nat) (n : Nat) (tr : List Ev) :
    goodPhases (Ev.buildMon a b n :: tr) = goodPhases tr := by
  simp [goodPhases, phaseOk]

theorem buildDevices_GP (k : KwIds) :
    ∀ (l : List (Option Nat × Option Nat)) (kind : Option Nat) (ret : Bool)
      (st : PSt), goodPhases st.trace = true →
      goodPhases (resSt (buildDevices k l kind ret st)).trace = true := by
  intro l
  induction l with
  | nil =>
    intro kind ret st h
    exact h
  | cons p rest ih =>
    intro kind ret st h
    obtain ⟨dev, param⟩ := p
    unfold buildDevices
    dsimp only
    have h1 : goodPhases ({ st with
        trace := Ev.buildDev dev kind param st.errCnt :: st.trace } : PSt).trace
        = true := by
      show goodPhases (Ev.buildDev dev kind param st.errCnt :: st.trace) = true
      rw [goodPhases_cons_buildDev]
      exact h
    split
    next st2 heq =>
      apply ih
      have h2 := (make_device_fields
        { st with trace := Ev.buildDev dev kind param st.errCnt :: st.trace }
        dev kind param).1
      rw [heq] at h2
      rw [h2]
      exact h1
    next e st2 heq =>
      have h2 : goodPhases st2.trace = true := by
        have h3 := (make_device_fields
          { st with trace := Ev.buildDev dev kind param st.errCnt :: st.trace }
          dev kind param).1
        rw [heq] at h3
        rw [h3]
        exact h1
      split
      next ex heq2 =>
        have h3 := display_error_GP e (stoppingSymbols k "BETWEEN") st2 h2
        rw [heq2] at h3
        exact h3
      next st3 heq2 =>
        apply ih
        have h3 := display_error_GP e (stoppingSymbols k "BETWEEN") st2 h2
        rw [heq2] at h3
        exact h3

theorem buildDevicesPhase_GP (k : KwIds) (l : List (Option Nat × Option Nat))
    (kind : Option Nat) (ret : Bool) (st : PSt) (hz : st.errCnt = 0)
    (h : goodPhases st.trace = true) :
    goodPhases (resSt (buildDevicesPhase k l kind ret st)).trace = true := by
  unfold buildDevicesPhase
  dsimp only
  apply buildDevices_GP
  show goodPhases (Ev.phaseEnter st.errCnt :: st.trace) = true
  simp [goodPhases, phaseOk, hz]
  simpa [goodPhases] using h

theorem parse_device_name_GP (k : KwIds) (g : Bool) (st0 : PSt)
    (h : goodPhases st0.trace = true) :
    goodPhases (resSt (parse_device_name k g st0)).trace = true := by
  unfold parse_device_name
  dsimp only
  have hst : goodPhases (if g = true then nextTok st0 else st0).trace = true := by
    split
    · rw [(nextTok_fields st0).1]
      exact h
    · exact h
  generalize hgen : (if g = true then nextTok st0 else st0) = s at hst ⊢
  split
  · exact hst
  · split
    all_goals
      rename_i heq
      have h3 := display_error_GP ErrCode.NO_NAME (stoppingSymbols k "BETWEEN")
        s hst
      rw [heq] at h3
      exact h3

theorem parse_device_type_GP (k : KwIds) (st : PSt)
    (h : goodPhases st.trace = true) :
    goodPhases (resSt (parse_device_type k st)).trace = true := by
  unfold parse_device_type
  split
  · split
    all_goals
      rename_i heq
      have h3 := display_error_GP ErrCode.NOT_VALID_DEVICE_TYPE
        (stoppingSymbols k "BETWEEN") st h
      rw [heq] at h3
      exact h3
  · exact h

theorem parse_device_GP (k : KwIds) (st0 : PSt)
    (h : goodPhases st0.trace = true) :
    goodPhases (resSt (parse_device k st0)).trace = true := by
  unfold parse_device
  split
  next e heq =>
    have h3 := parse_device_name_GP k true st0 h
    rw [heq] at h3
    exact h3
  next nstat devid st1 heq =>
    have h1 : goodPhases st1.trace = true := by
      have h3 := parse_device_name_GP k true st0 h
      rw [heq] at h3
      exact h3
    dsimp only
    have h2 : goodPhases (nextTok st1).trace = true := by
      rw [(nextTok_fields st1).1]
      exact h1
    split
    · have h4 : goodPhases (nextTok (nextTok st1)).trace = true := by
        rw [(nextTok_fields _).1]
        exact h2
      split
      · split
        all_goals
          rename_i heq2
          have h5 := display_error_GP ErrCode.NO_PARAMETER
            (stoppingSymbols k "BETWEEN") _ h4
          rw [heq2] at h5
          exact h5
      · have h5 : goodPhases (nextTok (nextTok (nextTok st1))).trace = true := by
          rw [(nextTok_fields _).1]
          exact h4
        split
        · split
          all_goals
            rename_i heq2
            have h6 := display_error_GP ErrCode.NO_CLOSE_BRACKET
              (stoppingSymbols k "BETWEEN") _ h5
            rw [heq2] at h6
            exact h6
        · show goodPhases (nextTok (nextTok (nextTok (nextTok st1)))).trace = true
          rw [(nextTok_fields _).1]
          exact h5
    · exact h2

theorem device_def_loop_GP (k : KwIds) :
    ∀ (fuel : Nat) (ret : Bool) (named : List (Option Nat × Option Nat))
      (st : PSt), goodPhases st.trace = true →
      goodPhases (resSt (device_def_loop k fuel ret named st)).trace = true := by
  intro fuel
  induction fuel with
  | zero =>
    intro ret named st h
    exact h
  | succ n ih =>
    intro ret named st h
    simp only [device_def_loop]
    split
    · split
      next e heq =>
        have h3 := parse_device_GP k st h
        rw [heq] at h3
        exact h3
      next dstat dev st2 heq =>
        apply ih
        have h3 := parse_device_GP k st h
        rw [heq] at h3
        exact h3
    · exact h

theorem parse_device_def_GP (k : KwIds) (fuel : Nat) (st : PSt)
    (h : goodPhases st.trace = true) :
    goodPhases (resSt (parse_device_def k fuel st)).trace = true := by
  unfold parse_device_def
  split
  next e heq =>
    have h3 := parse_device_type_GP k st h
    rw [heq] at h3
    exact h3
  next kstat kind st1 heq =>
    have h1 : goodPhases st1.trace = true := by
      have h3 := parse_device_type_GP k st h
      rw [heq] at h3
      exact h3
    split
    next e heq2 =>
      have h3 := parse_device_GP k st1 h1
      rw [heq2] at h3
      exact h3
    next dstat dev st2 heq2 =>
      have h2 : goodPhases st2.trace = true := by
        have h3 := parse_device_GP k st1 h1
        rw [heq2] at h3
        exact h3
      dsimp only
      split
      next e heq3 =>
        exact goodPhases_res_error heq3 (device_def_loop_GP k fuel _ _ _ h2)
      next ret2 named2 st3 heq3 =>
        have h3 : goodPhases st3.trace = true :=
          goodPhases_res_ok heq3 (device_def_loop_GP k fuel _ _ _ h2)
        split
        · split
          all_goals
            rename_i heq4
            have h5 := display_error_GP ErrCode.NO_PUNCTUATION
              (stoppingSymbols k "BETWEEN") st3 h3
            rw [heq4] at h5
            exact h5
        · exact h3

theorem device_list_loop_GP (k : KwIds) :
    ∀ (fuel : Nat) (ret : Bool) (st : PSt), goodPhases st.trace = true →
      goodPhases (resSt (device_list_loop k fuel ret st)).trace = true := by
  intro fuel
  induction fuel with
  | zero =>
    intro ret st h
    exact h
  | succ n ih =>
    intro ret st h
    simp only [device_list_loop]
    split
    · split
      next e heq =>
        have h3 := parse_device_def_GP k n st h
        rw [heq] at h3
        exact h3
      next status kind devs st2 heq =>
        have h2 : goodPhases st2.trace = true := by
          have h3 := parse_device_def_GP k n st h
          rw [heq] at h3
          exact h3
        split
        next e heq2 =>
          split at heq2
          next hc =>
            have hz : st2.errCnt = 0 := by
              have hc2 := hc
              simp only [Bool.and_eq_true, beq_iff_eq] at hc2
              exact hc2.2
            have h3 := buildDevicesPhase_GP k (devs.getD []) kind (status && ret)
              st2 hz h2
            rw [heq2] at h3
            exact h3
          next => exact Except.noConfusion heq2
        next ret2 st3 heq2 =>
          split at heq2
          next hc =>
            have hz : st2.errCnt = 0 := by
              have hc2 := hc
              simp only [Bool.and_eq_true, beq_iff_eq] at hc2
              exact hc2.2
            have h3 := buildDevicesPhase_GP k (devs.getD []) kind (status && ret)
              st2 hz h2
            rw [heq2] at h3
            apply ih
            rw [(nextTok_fields st3).1]
            exact h3
          next =>
            have h5 : st2 = st3 := congrArg Prod.snd (Except.ok.inj heq2)
            apply ih
            rw [(nextTok_fields st3).1, ← h5]
            exact h2
    · split
      · exact h
      · exact h

theorem parse_device_list_GP (k : KwIds) (fuel : Nat) (st0 : PSt)
    (h : goodPhases st0.trace = true) :
    goodPhases (resSt (parse_device_list k fuel st0)).trace = true := by
  unfold parse_device_list
  dsimp only
  have h1 : goodPhases (nextTok st0).trace = true := by
    rw [(nextTok_fields st0).1]
    exact h
  split
  next e heq =>
    split at heq
    next =>
      have h3 := display_error_GP ErrCode.NO_DEVICE (stoppingSymbols k "DEVICE")
        (nextTok st0) h1
      rw [heq] at h3
      exact h3
    next => exact Except.noConfusion heq
  next u st2 heq =>
    have h2 : goodPhases st2.trace = true := by
      split at heq
      next =>
        have h3 := display_error_GP ErrCode.NO_DEVICE
          (stoppingSymbols k "DEVICE") (nextTok st0) h1
        rw [heq] at h3
        exact h3
      next =>
        have h5 : nextTok st0 = st2 := congrArg Prod.snd (Except.ok.inj heq)
        rw [← h5]
        exact h1
    apply device_list_loop_GP
    rw [(nextTok_fields st2).1]
    exact h2

theorem parse_output_GP (k : KwIds) (st0 : PSt)
    (h : goodPhases st0.trace = true) :
    goodPhases (resSt (parse_output k st0)).trace = true := by
  unfold parse_output
  split
  next e heq =>
    exact goodPhases_res_error heq (parse_device_name_GP k false st0 h)
  next nstat od st1 heq =>
    have h1 : goodPhases st1.trace = true :=
      goodPhases_res_ok heq (parse_device_name_GP k false st0 h)
    dsimp only
    have h2 : goodPhases (nextTok st1).trace = true := by
      rw [(nextTok_fields st1).1]
      exact h1
    split
    · have h4 : goodPhases (nextTok (nextTok st1)).trace = true := by
        rw [(nextTok_fields _).1]
        exact h2
      split
      · split
        all_goals
          rename_i heq2
          have h5 := display_error_GP ErrCode.NOT_VALID_OUTPUT
            (stoppingSymbols k "BETWEEN") _ h4
          rw [heq2] at h5
          exact h5
      · show goodPhases (nextTok (nextTok (nextTok st1))).trace = true
        rw [(nextTok_fields _).1]
        exact h4
    · exact h2

theorem parse_input_GP (k : KwIds) (st0 : PSt)
    (h : goodPhases st0.trace = true) :
    goodPhases (resSt (parse_input k st0)).trace = true := by
  unfold parse_input
  split
  next e heq =>
    exact goodPhases_res_error heq (parse_device_name_GP k true st0 h)
  next nstat idd st1 heq =>
    have h1 : goodPhases st1.trace = true :=
      goodPhases_res_ok heq (parse_device_name_GP k true st0 h)
    dsimp only
    have h2 : goodPhases (nextTok st1).trace = true := by
      rw [(nextTok_fields st1).1]
      exact h1
    split
    · split
      all_goals
        rename_i heq2
        have h5 := display_error_GP ErrCode.NO_DOT
          (stoppingSymbols k "BETWEEN") _ h2
        rw [heq2] at h5
        exact h5
    · have h4 : goodPhases (nextTok (nextTok st1)).trace = true := by
        rw [(nextTok_fields _).1]
        exact h2
      split
      · split
        all_goals
          rename_i heq2
          have h5 := display_error_GP ErrCode.NOT_VALID_INPUT
            (stoppingSymbols k "BETWEEN") _ h4
          rw [heq2] at h5
          exact h5
      · exact h4

theorem connection_input_loop_GP (k : KwIds) :
    ∀ (fuel : Nat) (ret : Bool) (inputs : List (Option Nat × Option Nat))
      (st : PSt), goodPhases st.trace = true →
      goodPhases (resSt (connection_input_loop k fuel ret inputs st)).trace
        = true := by
  intro fuel
  induction fuel with
  | zero =>
    intro ret inputs st h
    exact h
  | succ n ih =>
    intro ret inputs st h
    simp only [connection_input_loop]
    split
    · split
      next e heq =>
        exact goodPhases_res_error heq (parse_input_GP k st h)
      next istat idd ipp st2 heq =>
        have h2 : goodPhases st2.trace = true :=
          goodPhases_res_ok heq (parse_input_GP k st h)
        apply ih
        rw [(nextTok_fields st2).1]
        exact h2
    · exact h

theorem parse_connection_GP (k : KwIds) (fuel : Nat) (st : PSt)
    (h : goodPhases st.trace = true) :
    goodPhases (resSt (parse_connection k fuel st)).trace = true := by
  unfold parse_connection
  split
  next e heq =>
    exact goodPhases_res_error heq (parse_output_GP k st h)
  next ostat od op st1 heq =>
    have h1 : goodPhases st1.trace = true :=
      goodPhases_res_ok heq (parse_output_GP k st h)
    split
    · split
      all_goals
        rename_i heq2
        have h5 := display_error_GP ErrCode.NO_CONNECTION_OP
          (stoppingSymbols k "BETWEEN") st1 h1
        rw [heq2] at h5
        exact h5
    · split
      next e heq2 =>
        exact goodPhases_res_error heq2 (parse_input_GP k st1 h1)
      next istat idd ipp st2 heq2 =>
        have h2 : goodPhases st2.trace = true :=
          goodPhases_res_ok heq2 (parse_input_GP k st1 h1)
        dsimp only
        have h3 : goodPhases (nextTok st2).trace = true := by
          rw [(nextTok_fields st2).1]
          exact h2
        split
        next e heq3 =>
          exact goodPhases_res_error heq3
            (connection_input_loop_GP k fuel _ _ _ h3)
        next ret2 inputs2 st3 heq3 =>
          have h4 : goodPhases st3.trace = true :=
            goodPhases_res_ok heq3 (connection_input_loop_GP k fuel _ _ _ h3)
          split
          · split
            all_goals
              rename_i heq4
              have h5 := display_error_GP ErrCode.NO_PUNCTUATION
                (stoppingSymbols k "BETWEEN") st3 h4
              rw [heq4] at h5
              exact h5
          · exact h4

theorem buildConns_GP (k : KwIds) :
    ∀ (l : List (Option Nat × Option Nat)) (od op : Option Nat) (ret : Bool)
      (st : PSt), goodPhases st.trace = true →
      goodPhases (resSt (buildConns k l od op ret st)).trace = true := by
  intro l
  induction l with
  | nil =>
    intro od op ret st h
    exact h
  | cons p rest ih =>
    intro od op ret st h
    obtain ⟨idd, ipp⟩ := p
    unfold buildConns
    dsimp only
    have h1 : goodPhases ({ st with
        trace := Ev.buildConn od op idd ipp st.errCnt :: st.trace } : PSt).trace
        = true := by
      show goodPhases (Ev.buildConn od op idd ipp st.errCnt :: st.trace) = true
      rw [goodPhases_cons_buildConn]
      exact h
    split
    next st2 heq =>
      apply ih
      have h2 := (make_connection_fields
        { st with trace := Ev.buildConn od op idd ipp st.errCnt :: st.trace }
        od op idd ipp).1
      rw [heq] at h2
      rw [h2]
      exact h1
    next e st2 heq =>
      have h2 : goodPhases st2.trace = true := by
        have h3 := (make_connection_fields
          { st with trace := Ev.buildConn od op idd ipp st.errCnt :: st.trace }
          od op idd ipp).1
        rw [heq] at h3
        rw [h3]
        exact h1
      split
      all_goals
        rename_i heq2
        have h3 := display_error_GP e (stoppingSymbols k "BETWEEN") st2 h2
        rw [heq2] at h3
        first
        | exact h3
        | (apply ih; exact h3)

theorem buildConnsPhase_GP (k : KwIds) (out : Option Nat × Option Nat)
    (inputs : List (Option Nat × Option Nat)) (ret : Bool) (st : PSt)
    (hz : st.errCnt = 0) (h : goodPhases st.trace = true) :
    goodPhases (resSt (buildConnsPhase k out inputs ret st)).trace = true := by
  unfold buildConnsPhase
  dsimp only
  apply buildConns_GP
  show goodPhases (Ev.phaseEnter st.errCnt :: st.trace) = true
  simp [goodPhases, phaseOk, hz]
  simpa [goodPhases] using h

theorem connect_list_loop_GP (k : KwIds) :
    ∀ (fuel : Nat) (ret : Bool) (st : PSt), goodPhases st.trace = true →
      goodPhases (resSt (connect_list_loop k fuel ret st)).trace = true := by
  intro fuel
  induction fuel with
  | zero =>
    intro ret st h
    exact h
  | succ n ih =>
    intro ret st h
    simp only [connect_list_loop]
    split
    · split
      next e heq =>
        exact goodPhases_res_error heq (parse_connection_GP k n st h)
      next status out inputs st2 heq =>
        have h2 : goodPhases st2.trace = true :=
          goodPhases_res_ok heq (parse_connection_GP k n st h)
        split
        next e heq2 =>
          split at heq2
          next hc =>
            have hz : st2.errCnt = 0 := by
              have hc2 := hc
              simp only [Bool.and_eq_true, beq_iff_eq] at hc2
              exact hc2.2
            have h3 := buildConnsPhase_GP k (out.getD (none, none)) inputs
              (status && ret) st2 hz h2
            rw [heq2] at h3
            exact h3
          next => exact Except.noConfusion heq2
        next ret2 st3 heq2 =>
          split at heq2
          next hc =>
            have hz : st2.errCnt = 0 := by
              have hc2 := hc
              simp only [Bool.and_eq_true, beq_iff_eq] at hc2
              exact hc2.2
            have h3 := buildConnsPhase_GP k (out.getD (none, none)) inputs
              (status && ret) st2 hz h2
            rw [heq2] at h3
            apply ih
            rw [(nextTok_fields st3).1]
            exact h3
          next =>
            have h5 : st2 = st3 := congrArg Prod.snd (Except.ok.inj heq2)
            apply ih
            rw [(nextTok_fields st3).1, ← h5]
            exact h2
    · split
      · exact h
      · exact h

theorem parse_connect_list_GP (k : KwIds) (fuel : Nat) (st : PSt)
    (h : goodPhases st.trace = true) :
    goodPhases (resSt (parse_connect_list k fuel st)).trace = true := by
  unfold parse_connect_list
  split
  · split
    all_goals
      rename_i heq
      have h3 := display_error_GP ErrCode.NO_CONNECT
        (stoppingSymbols k "CONNECT") st h
      rw [heq] at h3
      exact h3
  · apply connect_list_loop_GP
    rw [(nextTok_fields st).1]
    exact h

theorem buildMonPhase_GP (k : KwIds) (od op : Option Nat) (ret : Bool)
    (st : PSt) (hz : st.errCnt = 0) (h : goodPhases st.trace = true) :
    goodPhases (resSt (buildMonPhase k od op ret st)).trace = true := by
  unfold buildMonPhase
  dsimp only
  have h2 : goodPhases (Ev.buildMon od op st.errCnt ::
      Ev.phaseEnter st.errCnt :: st.trace) = true := by
    rw [goodPhases_cons_buildMon]
    show goodPhases (Ev.phaseEnter st.errCnt :: st.trace) = true
    simp [goodPhases, phaseOk, hz]
    simpa [goodPhases] using h
  split
  next st2 heq =>
    have h3 := (make_monitor_fields
      { st with trace := Ev.buildMon od op st.errCnt ::
          Ev.phaseEnter st.errCnt :: st.trace } od op).1
    rw [heq] at h3
    show goodPhases st2.trace = true
    rw [h3]
    exact h2
  next e st2 heq =>
    have h4 : goodPhases st2.trace = true := by
      have h3 := (make_monitor_fields
        { st with trace := Ev.buildMon od op st.errCnt ::
            Ev.phaseEnter st.errCnt :: st.trace } od op).1
      rw [heq] at h3
      rw [h3]
      exact h2
    split
    all_goals
      rename_i heq2
      have h5 := display_error_GP e (stoppingSymbols k "BETWEEN") st2 h4
      rw [heq2] at h5
      exact h5

theorem monitor_list_loop_GP (k : KwIds) :
    ∀ (fuel : Nat) (ret : Bool) (st : PSt), goodPhases st.trace = true →
      goodPhases (resSt (monitor_list_loop k fuel ret st)).trace = true := by
  intro fuel
  induction fuel with
  | zero =>
    intro ret st h
    exact h
  | succ n ih =>
    intro ret st h
    simp only [monitor_list_loop]
    split
    · have h1 : goodPhases (nextTok st).trace = true := by
        rw [(nextTok_fields st).1]
        exact h
      split
      next e heq =>
        exact goodPhases_res_error heq (parse_output_GP k _ h1)
      next status od op st2 heq =>
        have h2 : goodPhases st2.trace = true :=
          goodPhases_res_ok heq (parse_output_GP k _ h1)
        split
        next e heq2 =>
          split at heq2
          next hc =>
            have hz : st2.errCnt = 0 := by
              have hc2 := hc
              simp only [Bool.and_eq_true, beq_iff_eq] at hc2
              exact hc2.2
            have h3 := buildMonPhase_GP k od op (status && ret) st2 hz h2
            rw [heq2] at h3
            exact h3
          next => exact Except.noConfusion heq2
        next ret2 st3 heq2 =>
          split at heq2
          next hc =>
            have hz : st2.errCnt = 0 := by
              have hc2 := hc
              simp only [Bool.and_eq_true, beq_iff_eq] at hc2
              exact hc2.2
            have h3 := buildMonPhase_GP k od op (status && ret) st2 hz h2
            rw [heq2] at h3
            exact ih _ _ h3
          next =>
            have h5 : st2 = st3 := congrArg Prod.snd (Except.ok.inj heq2)
            apply ih
            rw [← h5]
            exact h2
    · split
      · exact h
      · exact h

theorem parse_monitor_list_GP (k : KwIds) (fuel : Nat) (st : PSt)
    (h : goodPhases st.trace = true) :
    goodPhases (resSt (parse_monitor_list k fuel st)).trace = true := by
  unfold parse_monitor_list
  split
  · split
    all_goals
      rename_i heq
      have h3 := display_error_GP ErrCode.NO_MONITOR
        (stoppingSymbols k "MONITOR") st h
      rw [heq] at h3
      exact h3
  · have h1 : goodPhases (nextTok st).trace = true := by
      rw [(nextTok_fields st).1]
      exact h
    dsimp only
    split
    next e heq =>
      exact goodPhases_res_error heq (parse_output_GP k _ h1)
    next status od op st2 heq =>
      have h2 : goodPhases st2.trace = true :=
        goodPhases_res_ok heq (parse_output_GP k _ h1)
      split
      next e heq2 =>
        split at heq2
        next hc =>
          have hz : st2.errCnt = 0 := by
            have hc2 := hc
            simp only [Bool.and_eq_true, beq_iff_eq] at hc2
            exact hc2.2
          have h3 := buildMonPhase_GP k od op status st2 hz h2
          rw [heq2] at h3
          exact h3
        next => exact Except.noConfusion heq2
      next ret2 st3 heq2 =>
        split at heq2
        next hc =>
          have hz : st2.errCnt = 0 := by
            have hc2 := hc
            simp only [Bool.and_eq_true, beq_iff_eq] at hc2
            exact hc2.2
          have h3 := buildMonPhase_GP k od op status st2 hz h2
          rw [heq2] at h3
          exact monitor_list_loop_GP k fuel _ _ h3
        next =>
          have h5 : st2 = st3 := congrArg Prod.snd (Except.ok.inj heq2)
          apply monitor_list_loop_GP
          rw [← h5]
          exact h2

/-- A one-line file whose statement defines two AND gates without the
mandatory fan-in parameter: the first `make_device` call fails
semantically, and the second is still issued. -/
def c3File : List (List Char) := ["DEVICE AND a, b;\n".toList]

theorem parse_network_GP (k : KwIds) (fuel : Nat) (st : PSt)
    (h : goodPhases st.trace = true) :
    goodPhases (resSt (parse_network k fuel st)).trace = true := by
  unfold parse_network
  split
  next e heq =>
    exact goodPhases_res_error heq (parse_device_list_GP k fuel st h)
  next r1 st1 heq =>
    have h1 : goodPhases st1.trace = true :=
      goodPhases_res_ok heq (parse_device_list_GP k fuel st h)
    split
    next e heq2 =>
      exact goodPhases_res_error heq2 (parse_connect_list_GP k fuel st1 h1)
    next r2 st2 heq2 =>
      have h2 : goodPhases st2.trace = true :=
        goodPhases_res_ok heq2 (parse_connect_list_GP k fuel st1 h1)
      split
      next e heq3 =>
        exact goodPhases_res_error heq3 (parse_monitor_list_GP k fuel st2 h2)
      next r3 st3 heq3 =>
        have h3 : goodPhases st3.trace = true :=
          goodPhases_res_ok heq3 (parse_monitor_list_GP k fuel st2 h2)
        dsimp only
        split
        · split
          all_goals
            rename_i heq4
            have h5 := display_error_GP ErrCode.NO_END
              (stoppingSymbols k "END") st3 h3
            rw [heq4] at h5
            exact h5
        · have h4 : goodPhases (nextTok st3).trace = true := by
            rw [(nextTok_fields st3).1]
            exact h3
          split
          · split
            all_goals
              rename_i heq4
              have h5 := display_error_GP ErrCode.NO_EOF
                (stoppingSymbols k "END") _ h4
              rw [heq4] at h5
              exact h5
          · split
            · split
              all_goals
                rename_i heq4
                have h5 := display_error_GP ErrCode.INPUTS_NOT_CONNECTED
                  (stoppingSymbols k "EOF") _ h4
                rw [heq4] at h5
                exact h5
            · exact h4

theorem scanAll_empty (fuel : Nat) (ns : List String) :
    scanAll fuel (initScanner [] ns) = ([], (0, 0), initScanner [] ns) := by
  cases fuel with
  | zero => rfl
  | succ n =>
    have h := getSymbol_at_exhausted (n + 1) (initScanner [] ns) rfl rfl
    simp only [scanAll]
    rw [h]
    rfl

/-- Running the whole pipeline on an empty file: the parser's
`__init__` interns the four keywords, the scanner immediately reports
EOF at line 0 column 0, and the first keyword check of
`_parse_device_list` raises the fatal `NO_DEVICE` error, which reports
the empty-file boilerplate and exits with code 1 — before any call into
the device model. -/
theorem runParser_empty_eq (fuel : Nat) :
    runParserOnFile fuel [] = Except.error (1,
      { toks := [], eofPos := (0, 0),
        cur := ⟨some SymType.EOF, none, 0, 0⟩, errCnt := 1,
        names := ["END", "MONITOR", "DEVICE", "CONNECT"], devices := [],
        conns := [], monitors := [], fileEmpty := true,
        trace := [Ev.errMsg ErrCode.NO_DEVICE 1, Ev.bpEmpty] }) := by
  unfold runParserOnFile
  dsimp only
  rw [scanAll_empty]
  rfl

/-- A parser state mid-file (non-empty file, cursor at line 4 column 2,
two tokens left), used to instantiate the C1 and C2 theorems. -/
def c1St : PSt :=
  { toks := [⟨some SymType.COMMA, none, 4, 3⟩, ⟨some SymType.SEMICOLON, none, 4, 5⟩],
    eofPos := (4, 9), cur := ⟨none, none, 4, 2⟩, errCnt := 0, names := [],
    devices := [], conns := [], monitors := [], fileEmpty := false,
    trace := [] }

/-- C1. `display_error` treats exactly the four missing-top-level-keyword
codes (`NO_DEVICE`, `NO_CONNECT`, `NO_MONITOR`, `NO_END`) as fatal: it
records the boilerplate report (the current symbol's line and column, or
the empty-file message), increments the error counter, and terminates the
process with exit code 1 (nonzero). Every other code returns normally
with the counter incremented, so parsing continues. In particular, on an
empty file the run exits with code 1 before any device is created and
without any semantic build call. -/
theorem display_error_fatal_vs_recoverable (code : ErrCode)
    (stops : List StopEntry) (st : PSt) :
    (pFatal code = true ↔ (code = ErrCode.NO_DEVICE ∨ code = ErrCode.NO_CONNECT
      ∨ code = ErrCode.NO_MONITOR ∨ code = ErrCode.NO_END))
    ∧ (pFatal code = true →
        display_error code stops st = Except.error (1,
          { st with
              errCnt := st.errCnt + 1,
              trace := Ev.errMsg code (st.errCnt + 1) ::
                (if st.fileEmpty then Ev.bpEmpty
                 else Ev.bpReport st.cur.linenum st.cur.colnum) :: st.trace })
        ∧ (1 : Nat) ≠ 0)
    ∧ (pFatal code = false →
        ∃ st2, display_error code stops st = Except.ok ((), st2)
          ∧ st2.errCnt = st.errCnt + 1
          ∧ st2.devices = st.devices
          ∧ st2.trace = Ev.errMsg code (st.errCnt + 1) ::
              (if st.fileEmpty then Ev.bpEmpty
               else Ev.bpReport st.cur.linenum st.cur.colnum) :: st.trace)
    ∧ (∀ fuel : Nat, ∃ st2, runParserOnFile fuel [] = Except.error (1, st2)
        ∧ st2.devices = []
        ∧ st2.trace.all (fun e => !(isBuildEv e)) = true) := by
  refine ⟨?_, ?_, ?_, ?_⟩
  · cases code <;> simp [pFatal]
  · intro h
    exact ⟨display_error_fatal code stops st h, by omega⟩
  · intro h
    refine ⟨_, display_error_ok code stops st h, ?_, ?_, ?_⟩
    · rw [(skipStops_fields stops _ _ rfl).2.1]
    · rw [(skipStops_fields stops _ _ rfl).2.2.1]
    · rw [(skipStops_fields stops _ _ rfl).1]
  · intro fuel
    refine ⟨_, runParser_empty_eq fuel, rfl, rfl⟩

/-- Witness for C1: the fatal `NO_DEVICE` code exits with code 1 from
the concrete state `c1St`, and the recoverable `NO_NAME` code returns
normally with the counter incremented. -/
theorem display_error_fatal_vs_recoverable_witness :
    (display_error ErrCode.NO_DEVICE [] c1St = Except.error (1,
      { c1St with
          errCnt := c1St.errCnt + 1,
          trace := Ev.errMsg ErrCode.NO_DEVICE (c1St.errCnt + 1) ::
            (if c1St.fileEmpty then Ev.bpEmpty
             else Ev.bpReport c1St.cur.linenum c1St.cur.colnum) :: c1St.trace }))
    ∧ (∃ st2, display_error ErrCode.NO_NAME [StopEntry.stype SymType.EOF] c1St
        = Except.ok ((), st2) ∧ st2.errCnt = c1St.errCnt + 1)
    ∧ (∃ st2, runParserOnFile 5 [] = Except.error (1, st2)
        ∧ st2.devices = []) := by
  refine ⟨?_, ?_, ?_⟩
  · exact ((display_error_fatal_vs_recoverable ErrCode.NO_DEVICE [] c1St).2.1
      (by decide)).1
  · obtain ⟨st2, h1, h2, h3, h4⟩ :=
      (display_error_fatal_vs_recoverable ErrCode.NO_NAME
        [StopEntry.stype SymType.EOF] c1St).2.2.1 (by decide)
    exact ⟨st2, h1, h2⟩
  · obtain ⟨st2, h1, h2, h3⟩ :=
      (display_error_fatal_vs_recoverable ErrCode.NO_DEVICE [] c1St).2.2.2 5
    exact ⟨st2, h1, h2⟩

theorem contains_eq_true_iff {α : Type} [DecidableEq α] (l : List α) (a : α) :
    l.contains a = true ↔ a ∈ l := List.elem_iff

/-- C2. After a recoverable error, `display_error` returns with the
current symbol's type or id in the stopping list it was given; and the
four stopping lists of `Parser.stopping_symbols` match exactly the sets
stated by the specification: the DEVICE section stops at the four
keywords or EOF, the CONNECT section at `MONITOR`/`END` or EOF, the
MONITOR section at `END` or EOF, and within a statement at a semicolon,
any of the four keywords, or EOF. -/
theorem display_error_recovers_to_stopping_set (code : ErrCode)
    (stops : List StopEntry) (st : PSt) (k : KwIds) :
    (pFatal code = false → StopEntry.stype SymType.EOF ∈ stops →
      matchStop stops (resSt (display_error code stops st)).cur = true)
    ∧ (∀ sym : Symbol,
        (matchStop (stoppingSymbols k "DEVICE") sym = true ↔
          (sym.symtype = some SymType.EOF ∨ sym.symid = some k.idEND
            ∨ sym.symid = some k.idMONITOR ∨ sym.symid = some k.idDEVICE
            ∨ sym.symid = some k.idCONNECT))
        ∧ (matchStop (stoppingSymbols k "CONNECT") sym = true ↔
          (sym.symtype = some SymType.EOF ∨ sym.symid = some k.idEND
            ∨ sym.symid = some k.idMONITOR))
        ∧ (matchStop (stoppingSymbols k "MONITOR") sym = true ↔
          (sym.symtype = some SymType.EOF ∨ sym.symid = some k.idEND))
        ∧ (matchStop (stoppingSymbols k "BETWEEN") sym = true ↔
          (sym.symtype = some SymType.SEMICOLON
            ∨ sym.symtype = some SymType.EOF
            ∨ sym.symid = some k.idEND ∨ sym.symid = some k.idMONITOR
            ∨ sym.symid = some k.idDEVICE ∨ sym.symid = some k.idCONNECT))) := by
  constructor
  · intro hnf hEOF
    rw [display_error_ok code stops st hnf]
    show matchStop stops (skipStops stops _).cur = true
    exact skipStops_match stops hEOF _ _ rfl
  · intro sym
    refine ⟨?_, ?_, ?_, ?_⟩ <;>
      (cases hsty : sym.symtype <;> cases hsid : sym.symid <;>
        simp [matchStop, stoppingSymbols, hsty, hsid, contains_eq_true_iff]) <;>
      tauto

/-- Witness for C2: from the concrete state `c1St` a recoverable
`NO_NAME` error fast-forwards to the semicolon two tokens ahead, which
is in the within-a-statement stopping set; and the MONITOR-section
characterisation holds at a concrete `END` keyword symbol. -/
theorem display_error_recovers_to_stopping_set_witness :
    matchStop (stoppingSymbols (parserInternNames []).1 "BETWEEN")
      (resSt (display_error ErrCode.NO_NAME
        (stoppingSymbols (parserInternNames []).1 "BETWEEN") c1St)).cur = true
    ∧ (matchStop (stoppingSymbols (parserInternNames []).1 "MONITOR")
        (⟨some SymType.KEYWORD, some (parserInternNames []).1.idEND, 3, 1⟩
          : Symbol) = true ↔
        ((⟨some SymType.KEYWORD, some (parserInternNames []).1.idEND, 3, 1⟩
          : Symbol).symtype = some SymType.EOF
        ∨ (⟨some SymType.KEYWORD, some (parserInternNames []).1.idEND, 3, 1⟩
          : Symbol).symid = some (parserInternNames []).1.idEND)) := by
  constructor
  · exact (display_error_recovers_to_stopping_set ErrCode.NO_NAME _ c1St
      (parserInternNames []).1).1 (by decide) (by decide)
  · exact ((display_error_recovers_to_stopping_set ErrCode.NO_NAME
      (stoppingSymbols (parserInternNames []).1 "BETWEEN") c1St
      (parserInternNames []).1).2 _).2.2.1

/-- Counterexample to the literal C3 claim: on `c3File`
(`DEVICE AND a, b;`) the first `make_device` call fails with a
semantic error, and the parser still issues the second `make_device`
call of the same statement with the error counter already at 1 — the
trace contains a build call at a nonzero counter. -/
theorem parse_network_builds_after_error :
    buildsOnlyAtZero (resSt (runParserOnFile 50 c3File)).trace = false
    ∧ Ev.buildDev (some 6) (some 4) none 1
        ∈ (resSt (runParserOnFile 50 c3File)).trace := by
  exact ⟨by decide, by decide⟩

/-- C3 (amended). During any run of `parse_network`, every semantic
build phase — the `make_device` loop of a DEVICE statement, the
`make_connection` loop of a CONNECT statement, and a MONITOR point's
`make_monitor` call — is entered only while the parser's internal error
counter equals zero; once an error has been recorded before a
statement's build guard, that statement issues no build calls (but a
semantic error arising inside the phase does not stop the phase's
remaining build calls). -/
theorem parse_network_builds_only_in_clean_phases (fuel : Nat)
    (file : List (List Char)) :
    goodPhases (resSt (runParserOnFile fuel file)).trace = true := by
  unfold runParserOnFile
  dsimp only
  apply parse_network_GP
  rfl

/-! ## logsim.py: command-line handling -/

/-- An output stream of the process. -/
inductive OutChan
  | stdout
  | stderr
deriving DecidableEq, Repr

/-- Observable events of `logsim.main`: a message printed to a stream
(`print` writes to stdout), or the launch of the command-line or
graphical simulator on a file path. -/
inductive MEv
  | out (chan : OutChan) (msg : String)
  | runCLI (path : String)
  | runGUI (path : String)
deriving DecidableEq, Repr

/-- The usage message of `logsim.main` (`logsim.py` lines 34–37). -/
def usageMsg : String :=
  "Usage:\nShow help: logsim.py -h\nCommand line user interface: logsim.py -c <file path>\nGraphical user interface: logsim.py <file path>"

/-- `logsim.py` line 41. -/
def invalidArgsMsg : String := "Error: invalid command line arguments\n"

/-- `logsim.py` line 66. -/
def oneFileMsg : String := "Error: one file path required\n"

/-- For the option string `"hc:"`: whether a character is an option, and
whether it takes an argument (`'c'` does, `'h'` does not). -/
def shortHasArg : Char → Option Bool
  | 'h' => some false
  | 'c' => some true
  | _ => none

/-- One cluster of short options (`getopt.do_shorts` for `"hc:"`): the
characters after a leading `'-'`. An option character not in the option
string, or a missing required argument, raises `GetoptError` (`none`).
An option that takes an argument consumes the rest of the cluster if
non-empty, otherwise the next argument. -/
def doShorts : List (String × String) → List Char → List String →
    Option (List (String × String) × List String)
  | opts, [], args => some (opts, args)
  | opts, c :: rest, args =>
    match shortHasArg c with
    | none => none
    | some false => doShorts (opts ++ [(String.mk ['-', c], "")]) rest args
    | some true =>
      if rest = [] then
        match args with
        | [] => none
        | a :: args2 => some (opts ++ [(String.mk ['-', c], a)], args2)
      else some (opts ++ [(String.mk ['-', c], rest.asString)], args)

/-- The loop of `getopt.getopt`: process arguments while they start with
`'-'` (and are not the lone `"-"`); `"--"` is consumed and stops option
processing; the first non-option argument stops it with the remaining
arguments returned as positionals. The fuel only bounds iterations;
`args.length + 1` always suffices since each step consumes at least one
argument. -/
def getoptLoop : Nat → List (String × String) → List String →
    Option (List (String × String) × List String)
  | 0, opts, args => some (opts, args)
  | fuel + 1, opts, args =>
    match args with
    | [] => some (opts, [])
    | a :: rest =>
      if a = "--" then some (opts, rest)
      else if a.toList.head? = some '-' ∧ a ≠ "-" then
        match doShorts opts (a.toList.drop 1) rest with
        | none => none
        | some (opts2, args2) => getoptLoop fuel opts2 args2
      else some (opts, a :: rest)

/-- `getopt.getopt(arg_list, "hc:")`: `none` models `GetoptError`. -/
def pyGetopt (args : List String) : Option (List (String × String) × List String) :=
  getoptLoop (args.length + 1) [] args

/-- The `for option, path in options` loop of `logsim.main` (`logsim.py`
lines 51–61): `-h` prints the usage message to stdout and exits (via
`sys.exit()`, hence with code 0); `-c` runs the command-line simulator
on its argument. Returns the events and the exit code if the loop
exited. -/
def optionsLoop : List (String × String) → List MEv × Option Nat
  | [] => ([], none)
  | (o, p) :: rest =>
    if o = "-h" then ([MEv.out OutChan.stdout usageMsg], some 0)
    else if o = "-c" then
      let r := optionsLoop rest
      (MEv.runCLI p :: r.1, r.2)
    else optionsLoop rest

/-- `logsim.main(arg_list)` (`logsim.py` lines 28–79), up to the
simulator launches (modelled as events). Both error paths use Python's
`print` (which writes to stdout) and `sys.exit()` with no argument
(which raises `SystemExit(None)`, terminating the process with exit
code 0). -/
def mainModel (arg_list : List String) : List MEv × Option Nat :=
  match pyGetopt arg_list with
  | none => ([MEv.out OutChan.stdout invalidArgsMsg,
      MEv.out OutChan.stdout usageMsg], some 0)
  | some (options, arguments) =>
    let r := optionsLoop options
    match r.2 with
    | some c => (r.1, some c)
    | none =>
      if options = [] then
        if arguments.length ≠ 1 then
          (r.1 ++ [MEv.out OutChan.stdout oneFileMsg,
            MEv.out OutChan.stdout usageMsg], some 0)
        else (r.1 ++ [MEv.runGUI (arguments.getD 0 "")], none)
      else (r.1, none)

/-- Counterexample to the literal C8 claim: invoked with no arguments at
all (no options, zero positional arguments, so "a number of positional
arguments different from one"), `logsim.main` prints the error and the
usage message to standard output — nothing is written to standard
error — and exits with code 0, which is not a nonzero exit code. -/
theorem logsim_no_args_stdout_exit_zero :
    mainModel [] = ([MEv.out OutChan.stdout oneFileMsg,
      MEv.out OutChan.stdout usageMsg], some 0)
    ∧ (∀ m : String, MEv.out OutChan.stderr m ∉ (mainModel []).1)
    ∧ (mainModel []).2 = some 0 := by
  refine ⟨rfl, ?_, rfl⟩
  intro m
  show MEv.out OutChan.stderr m ∉ [MEv.out OutChan.stdout oneFileMsg,
    MEv.out OutChan.stdout usageMsg]
  simp

/-- C8 (amended). Whenever the program is invoked with an invalid option
(or an option missing its required argument), or with no options and a
number of positional arguments different from one, it prints the
relevant error message followed by the usage message to standard output
and terminates via `sys.exit()` with exit code 0. -/
theorem logsim_bad_args_usage_stdout (arg_list : List String) :
    (pyGetopt arg_list = none →
      mainModel arg_list = ([MEv.out OutChan.stdout invalidArgsMsg,
        MEv.out OutChan.stdout usageMsg], some 0))
    ∧ (∀ args : List String, pyGetopt arg_list = some ([], args) →
        args.length ≠ 1 →
        mainModel arg_list = ([MEv.out OutChan.stdout oneFileMsg,
          MEv.out OutChan.stdout usageMsg], some 0)) := by
  constructor
  · intro h
    unfold mainModel
    rw [h]
  · intro args h hlen
    unfold mainModel
    rw [h]
    simp [optionsLoop, hlen]

/-- Witness for C8 at the invalid option `-x` (GetoptError path) and at
two positional arguments with no options (wrong-count path). -/
theorem logsim_bad_args_usage_stdout_witness :
    mainModel ["-x"] = ([MEv.out OutChan.stdout invalidArgsMsg,
      MEv.out OutChan.stdout usageMsg], some 0)
    ∧ mainModel ["a", "b"] = ([MEv.out OutChan.stdout oneFileMsg,
      MEv.out OutChan.stdout usageMsg], some 0) :=
  ⟨(logsim_bad_args_usage_stdout ["-x"]).1 (by decide),
   (logsim_bad_args_usage_stdout ["a", "b"]).2 ["a", "b"] (by decide)
     (by decide)⟩

end GF2
